import Mathlib

/-!
Verification of the numerical core of the GradientDescent visualization app.

Shallow embedding of:
* `src/utils/problems.ts` (the three `ProblemConfig` variants: linear, logistic,
  polynomial — second/latest revision of the file),
* `src/utils/gradientDescent.ts` (`gradientDescentStep`, `computeLossLandscape`,
  `generateContourLevels`),
* the contour-threshold generation inlined in
  `src/components/LossLandscape.svelte` (`drawContours`),
* the training-session controller of `src/components/Sidebar.svelte`
  (`startTraining` tick loop, `resetTraining`) together with the manual-drag
  handler of `LossLandscape.svelte`, driving the Svelte stores of `stores.ts`
  (`createHistoryStore`, `createParametersStore`; both revisions concatenated
  into `src/types/types.ts` agree on them).

JavaScript `number` is modelled as the real numbers `ℝ` (exact arithmetic,
no floats, no `NaN`/`Infinity`); `Math.random()` is modelled by an explicit
stream `rand : ℕ → ℝ` of values, and the final `data.sort(() => Math.random()
- 0.5)` shuffle is modelled by quantifying over an arbitrary permutation of
the generated list in the theorems.  `Math.floor` on non-negative numbers is
`Nat.floor`.
-/

namespace GradDescent

/-- Source `DataPoint` from `src/types/types.ts`: one observation; `label` is present
only for classification (`label?: number`). -/
structure DataPoint where
  x : ℝ
  y : ℝ
  isTraining : Bool
  label : Option ℤ := none

/-- Source `ModelParameters` from `src/types/types.ts`: the 2-dimensional optimization
state `{a, b}`. -/
structure ModelParameters where
  a : ℝ
  b : ℝ

/-- JavaScript `point.label || 0`: `undefined` (and `0`) coerce to `0`. -/
def labelOrZero (l : Option ℤ) : ℤ := l.getD 0

/-! ## Linear regression (`problems.ts`, `linearRegression`) -/

/-- Source `linearRegression.trueParameters`. -/
def linearTrueParameters : ModelParameters := ⟨1.5, 0.5⟩

/-- Source `linearRegression.generateData` (before the final random shuffle; the
shuffle is modelled by quantifying over permutations in the theorems).
`rand` is the stream of `Math.random()` results: iteration `i` consumes
`rand (2*i)` for the x-jitter and `rand (2*i+1)` for the noise. -/
noncomputable def linearGenerateData (numPoints : ℕ) (trainSplit noiseLevel : ℝ)
    (rand : ℕ → ℝ) : List DataPoint :=
  let trueA := linearTrueParameters.a
  let trueB := linearTrueParameters.b
  let numTrain := ⌊(numPoints : ℝ) * trainSplit⌋₊
  (List.range numPoints).map fun (i : ℕ) =>
    let x := ((i : ℝ) / ((numPoints : ℝ) - 1)) * 4 - 2 + (rand (2 * i) - 0.5) * 0.2
    let noise := (rand (2 * i + 1) - 0.5) * noiseLevel * 2
    { x := x, y := trueA * x + trueB + noise, isTraining := decide (i < numTrain) }

/-- Source `linearRegression.predict`. -/
noncomputable def linearPredict (x : ℝ) (params : ModelParameters) : ℝ :=
  params.a * x + params.b

/-- Source `linearRegression.computeLoss`: mean squared error, `0` on empty data. -/
noncomputable def linearComputeLoss (data : List DataPoint)
    (params : ModelParameters) : ℝ :=
  if data.length = 0 then 0 else
    (data.foldl (fun totalError point =>
      let prediction := params.a * point.x + params.b
      let error := prediction - point.y
      totalError + error * error) 0) / (data.length : ℝ)

/-- Source `linearRegression.computeGradient`: the accumulation loop over
`(gradA, gradB)`, then both components divided by `data.length`. -/
noncomputable def linearComputeGradient (data : List DataPoint)
    (params : ModelParameters) : ModelParameters :=
  if data.length = 0 then ⟨0, 0⟩ else
    let g := data.foldl (fun (acc : ℝ × ℝ) point =>
      let prediction := params.a * point.x + params.b
      let error := prediction - point.y
      (acc.1 + 2 * error * point.x, acc.2 + 2 * error)) (0, 0)
    ⟨g.1 / (data.length : ℝ), g.2 / (data.length : ℝ)⟩

/-! ## Logistic regression (`problems.ts`, `logisticRegression`) -/

/-- Source `logisticRegression.trueParameters`. -/
def logisticTrueParameters : ModelParameters := ⟨1.2, 0.2⟩

/-- Source `logisticRegression.generateData`: two clusters centred at `(-0.8,-0.5)`
(class 0) and `(0.8,0.5)` (class 1); `spread = 0.4 + noiseLevel * 0.5`;
the class‑0 loop marks `i < floor(numClass0 * trainRatio)` as training and the
class‑1 loop marks `i < floor(numClass1 * trainRatio)`.  Modelled before the
final random shuffle, with `rand` the `Math.random()` stream (two calls per
point, class‑1 calls offset past the class‑0 ones). -/
noncomputable def logisticGenerateData (numPoints : ℕ) (trainSplit noiseLevel : ℝ)
    (rand : ℕ → ℝ) : List DataPoint :=
  let numClass0 := numPoints / 2
  let numClass1 := numPoints - numClass0
  let baseSpread : ℝ := 0.4
  let spread := baseSpread + noiseLevel * 0.5
  let class0 := (List.range numClass0).map fun (i : ℕ) =>
    let centerX : ℝ := -0.8
    let centerY : ℝ := -0.5
    let x := centerX + (rand (2 * i) - 0.5) * spread
    let y := centerY + (rand (2 * i + 1) - 0.5) * spread
    { x := x, y := y, isTraining := decide (i < ⌊(numClass0 : ℝ) * trainSplit⌋₊),
      label := some 0 : DataPoint }
  let class1 := (List.range numClass1).map fun (i : ℕ) =>
    let centerX : ℝ := 0.8
    let centerY : ℝ := 0.5
    let x := centerX + (rand (2 * numClass0 + 2 * i) - 0.5) * spread
    let y := centerY + (rand (2 * numClass0 + 2 * i + 1) - 0.5) * spread
    { x := x, y := y, isTraining := decide (i < ⌊(numClass1 : ℝ) * trainSplit⌋₊),
      label := some 1 : DataPoint }
  class0 ++ class1

/-- Source `logisticRegression.predict`: the y-value of the decision boundary
`a·x + b·y = 0` at a given `x`, special-casing `b = 0`. -/
noncomputable def logisticPredict (x : ℝ) (params : ModelParameters) : ℝ :=
  if params.b = 0 then 0 else -params.a * x / params.b

/-- Source `logisticRegression.computeLoss`: mean binary cross-entropy, each
prediction clamped to `[ε, 1-ε]` with `ε = 1e-7`; `0` on empty data. -/
noncomputable def logisticComputeLoss (data : List DataPoint)
    (params : ModelParameters) : ℝ :=
  if data.length = 0 then 0 else
    let epsilon : ℝ := 1e-7
    (data.foldl (fun totalLoss point =>
      let z := params.a * point.x + params.b * point.y
      let prediction := 1 / (1 + Real.exp (-z))
      let clampedPred := max epsilon (min (1 - epsilon) prediction)
      totalLoss - (if point.label = some 1 then Real.log clampedPred
                   else Real.log (1 - clampedPred))) 0) / (data.length : ℝ)

/-- Source `logisticRegression.computeGradient`: `error = σ(z) - (label || 0)`,
accumulated as `(error·x, error·y)` and averaged (no clamping). -/
noncomputable def logisticComputeGradient (data : List DataPoint)
    (params : ModelParameters) : ModelParameters :=
  if data.length = 0 then ⟨0, 0⟩ else
    let g := data.foldl (fun (acc : ℝ × ℝ) point =>
      let z := params.a * point.x + params.b * point.y
      let prediction := 1 / (1 + Real.exp (-z))
      let error := prediction - (labelOrZero point.label : ℝ)
      (acc.1 + error * point.x, acc.2 + error * point.y)) (0, 0)
    ⟨g.1 / (data.length : ℝ), g.2 / (data.length : ℝ)⟩

/-! ## Polynomial regression (`problems.ts`, `polynomialRegression`) -/

/-- Source `polynomialRegression.trueParameters`. -/
def polynomialTrueParameters : ModelParameters := ⟨0.5, -0.3⟩

/-- Source `polynomialRegression.generateData` (before the final shuffle; one
`Math.random()` call per point, for the noise). -/
noncomputable def polynomialGenerateData (numPoints : ℕ) (trainSplit noiseLevel : ℝ)
    (rand : ℕ → ℝ) : List DataPoint :=
  let trueA := polynomialTrueParameters.a
  let trueB := polynomialTrueParameters.b
  let numTrain := ⌊(numPoints : ℝ) * trainSplit⌋₊
  (List.range numPoints).map fun (i : ℕ) =>
    let x := ((i : ℝ) / ((numPoints : ℝ) - 1)) * 4 - 2
    let noise := (rand i - 0.5) * noiseLevel * 2
    { x := x, y := trueA * x * x + trueB * x + noise,
      isTraining := decide (i < numTrain) }

/-- Source `polynomialRegression.predict`. -/
noncomputable def polynomialPredict (x : ℝ) (params : ModelParameters) : ℝ :=
  params.a * x * x + params.b * x

/-- Source `polynomialRegression.computeLoss`: mean squared error of
`a·x² + b·x`, `0` on empty data. -/
noncomputable def polynomialComputeLoss (data : List DataPoint)
    (params : ModelParameters) : ℝ :=
  if data.length = 0 then 0 else
    (data.foldl (fun totalError point =>
      let prediction := params.a * point.x * point.x + params.b * point.x
      let error := prediction - point.y
      totalError + error * error) 0) / (data.length : ℝ)

/-- Source `polynomialRegression.computeGradient`. -/
noncomputable def polynomialComputeGradient (data : List DataPoint)
    (params : ModelParameters) : ModelParameters :=
  if data.length = 0 then ⟨0, 0⟩ else
    let g := data.foldl (fun (acc : ℝ × ℝ) point =>
      let prediction := params.a * point.x * point.x + params.b * point.x
      let error := prediction - point.y
      (acc.1 + 2 * error * point.x * point.x, acc.2 + 2 * error * point.x)) (0, 0)
    ⟨g.1 / (data.length : ℝ), g.2 / (data.length : ℝ)⟩

/-! ## The `ProblemConfig` bundle (`problems.ts` exports) -/

/-- Source `ProblemConfig` from `src/types/types.ts`: each variant carries data
synthesis, prediction, loss and gradient. -/
structure ProblemConfig where
  type : String
  name : String
  descriptionText : String
  trueParameters : ModelParameters
  generateData : ℕ → ℝ → ℝ → (ℕ → ℝ) → List DataPoint
  predict : ℝ → ModelParameters → ℝ
  computeLoss : List DataPoint → ModelParameters → ℝ
  computeGradient : List DataPoint → ModelParameters → ModelParameters

/-- The `linearRegression` problem configuration. -/
noncomputable def linearRegression : ProblemConfig where
  type := "linear-regression"
  name := "Linear Regression"
  descriptionText := "Fit a line to data points using least squares"
  trueParameters := linearTrueParameters
  generateData := linearGenerateData
  predict := linearPredict
  computeLoss := linearComputeLoss
  computeGradient := linearComputeGradient

/-- The `logisticRegression` problem configuration. -/
noncomputable def logisticRegression : ProblemConfig where
  type := "logistic-regression"
  name := "Logistic Regression"
  descriptionText := "Classify points into two categories"
  trueParameters := logisticTrueParameters
  generateData := logisticGenerateData
  predict := logisticPredict
  computeLoss := logisticComputeLoss
  computeGradient := logisticComputeGradient

/-- The `polynomialRegression` problem configuration. -/
noncomputable def polynomialRegression : ProblemConfig where
  type := "polynomial-regression"
  name := "Polynomial Regression"
  descriptionText := "Fit a polynomial curve to data"
  trueParameters := polynomialTrueParameters
  generateData := polynomialGenerateData
  predict := polynomialPredict
  computeLoss := polynomialComputeLoss
  computeGradient := polynomialComputeGradient

/-! ## Optimizer (`gradientDescent.ts`) -/

/-- Source `gradientDescentStep`: one step of gradient descent,
`params - learningRate * gradient`. -/
noncomputable def gradientDescentStep (data : List DataPoint)
    (currentParams : ModelParameters) (learningRate : ℝ)
    (problemConfig : ProblemConfig) : ModelParameters :=
  let gradient := problemConfig.computeGradient data currentParams
  ⟨currentParams.a - learningRate * gradient.a,
   currentParams.b - learningRate * gradient.b⟩

/-! ## Landscape sampling (`gradientDescent.ts`) -/

/-- Source `LossLandscapePoint` from `gradientDescent.ts` (the optional gradient
fields are always filled in by `computeLossLandscape`). -/
structure LossLandscapePoint where
  a : ℝ
  b : ℝ
  loss : ℝ
  gradientA : ℝ
  gradientB : ℝ

/-- The `paramRange` argument `{min, max}` of `computeLossLandscape`. -/
structure ParamRange where
  min : ℝ
  max : ℝ

/-- Source `computeLossLandscape`: loss (and gradient) sampled over a regular
`gridSize × gridSize` grid, `a = min + i*step`, `b = min + j*step` with
`step = (max - min)/(gridSize - 1)`. -/
noncomputable def computeLossLandscape (data : List DataPoint)
    (problemConfig : ProblemConfig) (gridSize : ℕ) (paramRange : ParamRange) :
    List (List LossLandscapePoint) :=
  let step := (paramRange.max - paramRange.min) / ((gridSize : ℝ) - 1)
  (List.range gridSize).map fun (i : ℕ) =>
    let a := paramRange.min + (i : ℝ) * step
    (List.range gridSize).map fun (j : ℕ) =>
      let b := paramRange.min + (j : ℝ) * step
      let params : ModelParameters := ⟨a, b⟩
      let loss := problemConfig.computeLoss data params
      let gradient := problemConfig.computeGradient data params
      ⟨a, b, loss, gradient.a, gradient.b⟩

/-- Minimum of a list of reals, `d` for the empty list.  Models the JS idiom
`minLoss = Infinity; minLoss = Math.min(minLoss, v)` over a non-empty
collection (the `Infinity` seed means the empty case is never consulted; all
theorems about it assume a non-empty list). -/
noncomputable def listMin (d : ℝ) : List ℝ → ℝ
  | [] => d
  | v :: vs => vs.foldl min v

/-- Maximum of a list of reals, `d` for the empty list (see `listMin`). -/
noncomputable def listMax (d : ℝ) : List ℝ → ℝ
  | [] => d
  | v :: vs => vs.foldl max v

/-- The flattened losses of a landscape, in iteration order. -/
noncomputable def landscapeLosses (landscape : List (List LossLandscapePoint)) :
    List ℝ :=
  (landscape.map (fun row => row.map (·.loss))).flatten

/-- Source `generateContourLevels` from `gradientDescent.ts`: `numLevels` evenly
spaced levels `minLoss + i * (maxLoss - minLoss)/(numLevels - 1)` over the
min/max loss of the landscape. -/
noncomputable def generateContourLevels
    (landscape : List (List LossLandscapePoint)) (numLevels : ℕ) : List ℝ :=
  let minLoss := listMin 0 (landscapeLosses landscape)
  let maxLoss := listMax 0 (landscapeLosses landscape)
  let step := (maxLoss - minLoss) / ((numLevels : ℝ) - 1)
  (List.range numLevels).map fun (i : ℕ) => minLoss + (i : ℝ) * step

/-- The contour thresholds computed inline by `drawContours` in
`src/components/LossLandscape.svelte`: with `numContours = 15` fixed,
the `14` values `exp(logMin + i*logStep) - 0.001` for `i = 1, …, 14`, where
`logMin = log(minLoss + 0.001)`, `logMax = log(maxLoss + 0.001)` and
`logStep = (logMax - logMin)/numContours` over the 60×60 `lossGrid`. -/
noncomputable def drawContoursThresholds (lossGrid : List (List ℝ)) : List ℝ :=
  let minLoss := listMin 0 lossGrid.flatten
  let maxLoss := listMax 0 lossGrid.flatten
  let numContours : ℕ := 15
  let logMin := Real.log (minLoss + 0.001)
  let logMax := Real.log (maxLoss + 0.001)
  let logStep := (logMax - logMin) / (numContours : ℝ)
  (List.range (numContours - 1)).map fun (i : ℕ) =>
    Real.exp (logMin + ((i : ℝ) + 1) * logStep) - 0.001

/-! ## Training-session controller
(`src/components/Sidebar.svelte` + the drag handler of
`src/components/LossLandscape.svelte`)

The Svelte stores live in `stores.ts` (both revisions concatenated into
`src/types/types.ts` agree on them): `createHistoryStore` holds a
`TrainingHistoryPoint[]` with `addPoint` appending (`[...history, point]`)
and `reset` setting `[]`; `createParametersStore` holds the parameters with
`reset` drawing both components as `Math.random() * 2 - 1`.  The session
logic (`startTraining` / the interval tick / `resetTraining` / the marker
drag) is translated from the components that drive those stores. -/

/-- Source `TrainingHistoryPoint` from `src/types/types.ts`. -/
structure TrainingHistoryPoint where
  step : ℕ
  trainLoss : ℝ
  testLoss : ℝ
  parameters : ModelParameters

/-- Source `createHistoryStore().addPoint` (`stores.ts`, in
`src/types/types.ts`): `update(history => [...history, point])` — append
at the end. -/
def historyAddPoint (history : List TrainingHistoryPoint)
    (p : TrainingHistoryPoint) : List TrainingHistoryPoint :=
  history ++ [p]

/-- Source `createHistoryStore().reset` (`stores.ts`, in
`src/types/types.ts`): `() => set([])` — the history becomes empty. -/
def historyResetStore : List TrainingHistoryPoint := []

/-- Source `createParametersStore().reset` (`stores.ts`, in
`src/types/types.ts`): `set({a: Math.random()*2-1, b: Math.random()*2-1})`;
`r1` and `r2` are the two `Math.random()` outcomes.  The store's `writable`
initializer uses the same expression. -/
noncomputable def parametersStoreReset (r1 r2 : ℝ) : ModelParameters :=
  ⟨r1 * 2 - 1, r2 * 2 - 1⟩

/-- The mutable session state owned by the UI controller: the contents of
`historyStore`, `parametersStore` and `trainingStore`, together with the
`startingStep` / `stepsCompleted` / `stepsToTrain` locals captured by
`startTraining`'s interval closure in `Sidebar.svelte`. -/
structure SessionState where
  history : List TrainingHistoryPoint
  params : ModelParameters
  currentStep : ℕ
  isTraining : Bool
  startingStep : ℕ
  stepsCompleted : ℕ
  stepsToTrain : ℕ

/-- The step of `history[history.length - 1]`, `0` for an empty history
(the `currentHistory.length > 0 ? … : 0` expression in `startTraining`). -/
def lastHistStep (history : List TrainingHistoryPoint) : ℕ :=
  match history.getLast? with
  | some p => p.step
  | none => 0

/-- The parameter range used by the landscape components, `{min: -5, max: 5}`. -/
def parameterRange : ParamRange := ⟨-5, 5⟩

/-- The clamp `Math.max(range.min, Math.min(range.max, v))` applied by the
drag handlers. -/
noncomputable def clampParam (v : ℝ) : ℝ :=
  max parameterRange.min (min parameterRange.max v)

/-- The session events: `startTraining`, one interval tick, `stopTraining`,
a manual drag of the parameter marker, and `resetTraining` (carrying the two
`Math.random()` outcomes that `parametersStore.reset()` consumes). -/
inductive Event where
  | start : Event
  | tick : Event
  | stop : Event
  | drag : ModelParameters → Event
  | reset : ℝ → ℝ → Event

/-- Whether an event is a manual drag. -/
def Event.isDrag : Event → Bool
  | .drag _ => true
  | _ => false

/-- Source `startTraining` (`Sidebar.svelte`): guard on `isTraining`, capture
`stepsToTrain` from the store, `stepsCompleted = 0`, and
`startingStep` = last recorded step (or `0`). -/
def applyStart (totalSteps : ℕ) (s : SessionState) : SessionState :=
  if s.isTraining then s else
    { s with isTraining := true, stepsToTrain := totalSteps,
             stepsCompleted := 0, startingStep := lastHistStep s.history }

/-- Source `stopTraining` (`Sidebar.svelte`): clear the interval. -/
def applyStop (s : SessionState) : SessionState :=
  { s with isTraining := false }

/-- One firing of the `setInterval` body in `startTraining`
(`Sidebar.svelte`): stop once `stepsCompleted >= stepsToTrain`, otherwise
perform one `gradientDescentStep` on the training subset, set the parameters,
and append a history point with step `startingStep + stepsCompleted + 1`.
When no interval is pending (`isTraining = false`) nothing fires. -/
noncomputable def applyTick (data : List DataPoint) (config : ProblemConfig)
    (learningRate : ℝ) (s : SessionState) : SessionState :=
  if s.isTraining = false then s else
  if s.stepsToTrain ≤ s.stepsCompleted then applyStop s else
    let trainData := data.filter (·.isTraining)
    let testData := data.filter (fun point => !point.isTraining)
    let newParams := gradientDescentStep trainData s.params learningRate config
    let nextStepNumber := s.startingStep + s.stepsCompleted + 1
    { s with params := newParams,
             currentStep := nextStepNumber,
             history := historyAddPoint s.history
               ⟨nextStepNumber, config.computeLoss trainData newParams,
                config.computeLoss testData newParams, newParams⟩,
             stepsCompleted := s.stepsCompleted + 1 }

/-- The marker-drag handler of `LossLandscape.svelte`: clamp the dragged
position, set the parameters, and append a history point with
`step: history.length`. -/
noncomputable def applyDrag (data : List DataPoint) (config : ProblemConfig)
    (p : ModelParameters) (s : SessionState) : SessionState :=
  let clampedA := clampParam p.a
  let clampedB := clampParam p.b
  let trainData := data.filter (·.isTraining)
  let testData := data.filter (fun point => !point.isTraining)
  { s with params := ⟨clampedA, clampedB⟩,
           history := historyAddPoint s.history
             ⟨s.history.length,
              config.computeLoss trainData ⟨clampedA, clampedB⟩,
              config.computeLoss testData ⟨clampedA, clampedB⟩,
              ⟨clampedA, clampedB⟩⟩ }

/-- Source `resetTraining` (`Sidebar.svelte`): stop, `parametersStore.reset()`
(drawing the two `Math.random()` outcomes `r1`, `r2`), `historyStore.reset()`,
zero `currentStep`, and — only when the dataset is non-empty — re-append an
initial history point at step `0` with the just-reset parameters. -/
noncomputable def applyReset (data : List DataPoint) (config : ProblemConfig)
    (r1 r2 : ℝ) (s : SessionState) : SessionState :=
  let s1 := applyStop s
  let fresh := parametersStoreReset r1 r2
  let trainData := data.filter (·.isTraining)
  let testData := data.filter (fun point => !point.isTraining)
  { s1 with params := fresh,
            currentStep := 0,
            history :=
              if 0 < data.length then
                historyAddPoint historyResetStore
                  ⟨0, config.computeLoss trainData fresh,
                   config.computeLoss testData fresh, fresh⟩
              else historyResetStore }

/-- Dispatch one session event. -/
noncomputable def applyEvent (data : List DataPoint) (config : ProblemConfig)
    (learningRate : ℝ) (totalSteps : ℕ) (s : SessionState) :
    Event → SessionState
  | .start => applyStart totalSteps s
  | .tick => applyTick data config learningRate s
  | .stop => applyStop s
  | .drag p => applyDrag data config p s
  | .reset r1 r2 => applyReset data config r1 r2 s

/-- Run a sequence of session events. -/
noncomputable def runEvents (data : List DataPoint) (config : ProblemConfig)
    (learningRate : ℝ) (totalSteps : ℕ) (s : SessionState)
    (events : List Event) : SessionState :=
  events.foldl (applyEvent data config learningRate totalSteps) s

/-- The pristine state before `onMount` has run: empty history, idle, the
parameters at the store's random initialization (`Math.random()*2-1` twice,
with `r1`, `r2` the two outcomes), and the training store's
`currentStep: 0` / `isTraining: false`. -/
noncomputable def initialState (r1 r2 : ℝ) : SessionState :=
  { history := [], params := parametersStoreReset r1 r2, currentStep := 0,
    isTraining := false, startingStep := 0, stepsCompleted := 0,
    stepsToTrain := 0 }

/-! ## Helper lemmas: accumulation loops as list sums -/

theorem foldl_add_eq {α : Type} (f : α → ℝ) :
    ∀ (l : List α) (c : ℝ),
      l.foldl (fun acc p => acc + f p) c = c + (l.map f).sum := by
  intro l
  induction l with
  | nil => intro c; simp
  | cons a t ih => intro c; simp [ih, add_assoc]

theorem foldl_sub_eq {α : Type} (f : α → ℝ) :
    ∀ (l : List α) (c : ℝ),
      l.foldl (fun acc p => acc - f p) c = c - (l.map f).sum := by
  intro l
  induction l with
  | nil => intro c; simp
  | cons a t ih => intro c; simp [ih, sub_sub]

theorem foldl_pair_eq {α : Type} (f g : α → ℝ) :
    ∀ (l : List α) (c : ℝ × ℝ),
      l.foldl (fun acc p => (acc.1 + f p, acc.2 + g p)) c =
        (c.1 + (l.map f).sum, c.2 + (l.map g).sum) := by
  intro l
  induction l with
  | nil => intro c; simp
  | cons a t ih => intro c; simp [ih, add_assoc]

theorem linearComputeLoss_eq_sum (data : List DataPoint) (params : ModelParameters) :
    linearComputeLoss data params =
      if data.length = 0 then 0 else
        ((data.map fun p => (params.a * p.x + params.b - p.y) *
          (params.a * p.x + params.b - p.y)).sum) / (data.length : ℝ) := by
  unfold linearComputeLoss
  split
  · rfl
  · rw [foldl_add_eq (fun p : DataPoint => (params.a * p.x + params.b - p.y) *
      (params.a * p.x + params.b - p.y)) data 0, zero_add]

theorem linearComputeGradient_eq_sum (data : List DataPoint) (params : ModelParameters) :
    linearComputeGradient data params =
      if data.length = 0 then ⟨0, 0⟩ else
        ⟨((data.map fun p => 2 * (params.a * p.x + params.b - p.y) * p.x).sum) / (data.length : ℝ),
         ((data.map fun p => 2 * (params.a * p.x + params.b - p.y)).sum) / (data.length : ℝ)⟩ := by
  unfold linearComputeGradient
  split
  · rfl
  · rw [foldl_pair_eq (fun p : DataPoint => 2 * (params.a * p.x + params.b - p.y) * p.x)
      (fun p : DataPoint => 2 * (params.a * p.x + params.b - p.y)) data (0, 0)]
    simp

theorem polynomialComputeLoss_eq_sum (data : List DataPoint) (params : ModelParameters) :
    polynomialComputeLoss data params =
      if data.length = 0 then 0 else
        ((data.map fun p => (params.a * p.x * p.x + params.b * p.x - p.y) *
          (params.a * p.x * p.x + params.b * p.x - p.y)).sum) / (data.length : ℝ) := by
  unfold polynomialComputeLoss
  split
  · rfl
  · rw [foldl_add_eq (fun p : DataPoint => (params.a * p.x * p.x + params.b * p.x - p.y) *
      (params.a * p.x * p.x + params.b * p.x - p.y)) data 0, zero_add]

theorem polynomialComputeGradient_eq_sum (data : List DataPoint) (params : ModelParameters) :
    polynomialComputeGradient data params =
      if data.length = 0 then ⟨0, 0⟩ else
        ⟨((data.map fun p => 2 * (params.a * p.x * p.x + params.b * p.x - p.y) * p.x * p.x).sum) /
            (data.length : ℝ),
         ((data.map fun p => 2 * (params.a * p.x * p.x + params.b * p.x - p.y) * p.x).sum) /
            (data.length : ℝ)⟩ := by
  unfold polynomialComputeGradient
  split
  · rfl
  · rw [foldl_pair_eq
      (fun p : DataPoint => 2 * (params.a * p.x * p.x + params.b * p.x - p.y) * p.x * p.x)
      (fun p : DataPoint => 2 * (params.a * p.x * p.x + params.b * p.x - p.y) * p.x) data (0, 0)]
    simp

/-- The per-point cross-entropy term of `logisticComputeLoss` (after
clamping), as a function of the parameters. -/
noncomputable def logisticLossTerm (params : ModelParameters) (p : DataPoint) : ℝ :=
  let z := params.a * p.x + params.b * p.y
  let prediction := 1 / (1 + Real.exp (-z))
  let clampedPred := max (1e-7 : ℝ) (min (1 - 1e-7) prediction)
  if p.label = some 1 then Real.log clampedPred else Real.log (1 - clampedPred)

theorem logisticComputeLoss_eq_sum (data : List DataPoint) (params : ModelParameters) :
    logisticComputeLoss data params =
      if data.length = 0 then 0 else
        (-(data.map (logisticLossTerm params)).sum) / (data.length : ℝ) := by
  unfold logisticComputeLoss
  split
  · rfl
  · show (data.foldl (fun totalLoss point => totalLoss - logisticLossTerm params point) 0) /
        (data.length : ℝ) = -(data.map (logisticLossTerm params)).sum / (data.length : ℝ)
    rw [foldl_sub_eq (logisticLossTerm params) data 0, zero_sub]

theorem logisticComputeGradient_eq_sum (data : List DataPoint) (params : ModelParameters) :
    logisticComputeGradient data params =
      if data.length = 0 then ⟨0, 0⟩ else
        ⟨((data.map fun p => (1 / (1 + Real.exp (-(params.a * p.x + params.b * p.y))) -
            (labelOrZero p.label : ℝ)) * p.x).sum) / (data.length : ℝ),
         ((data.map fun p => (1 / (1 + Real.exp (-(params.a * p.x + params.b * p.y))) -
            (labelOrZero p.label : ℝ)) * p.y).sum) / (data.length : ℝ)⟩ := by
  unfold logisticComputeGradient
  split
  · rfl
  · rw [foldl_pair_eq
      (fun p : DataPoint => (1 / (1 + Real.exp (-(params.a * p.x + params.b * p.y))) -
        (labelOrZero p.label : ℝ)) * p.x)
      (fun p : DataPoint => (1 / (1 + Real.exp (-(params.a * p.x + params.b * p.y))) -
        (labelOrZero p.label : ℝ)) * p.y) data (0, 0)]
    simp

/-! ## Claim C2: the optimizer step -/

/-- Claim C2: for every data array, parameter pair, learning rate and problem
model, `gradientDescentStep` returns exactly
`{a: params.a - learningRate*g.a, b: params.b - learningRate*g.b}` where
`g = model.computeGradient(data, params)`.  (The step is a pure function of
its arguments by construction of the embedding, so it mutates neither `data`
nor `params`.) -/
theorem claimC2_step_formula (model : ProblemConfig) (data : List DataPoint)
    (params : ModelParameters) (learningRate : ℝ) :
    gradientDescentStep data params learningRate model =
      ⟨params.a - learningRate * (model.computeGradient data params).a,
       params.b - learningRate * (model.computeGradient data params).b⟩ := rfl

/-! ## Claim C4: empty data -/

/-- Claim C4: for each of the three problems and every parameter pair,
`computeLoss` of the empty data array is `0` and `computeGradient` of the
empty data array is `{a: 0, b: 0}` (the guard clauses return these neutral
values outright, so nothing is divided by zero). -/
theorem claimC4_empty_data (params : ModelParameters) :
    (linearRegression.computeLoss [] params = 0 ∧
      linearRegression.computeGradient [] params = ⟨0, 0⟩) ∧
    (logisticRegression.computeLoss [] params = 0 ∧
      logisticRegression.computeGradient [] params = ⟨0, 0⟩) ∧
    (polynomialRegression.computeLoss [] params = 0 ∧
      polynomialRegression.computeGradient [] params = ⟨0, 0⟩) := by
  refine ⟨⟨?_, ?_⟩, ⟨?_, ?_⟩, ⟨?_, ?_⟩⟩ <;> rfl

/-! ## Claim C10: the logistic decision-boundary predictor -/

/-- Claim C10: for the logistic problem, `predict(x, params)` returns
`-params.a*x/params.b` when `params.b ≠ 0`, and the degenerate case
`params.b = 0` is special-cased to return `0`; being a total real-valued
function of its arguments, it never produces `Infinity` or `NaN` (which do
not exist in the exact-arithmetic model). -/
theorem claimC10_logistic_predict (x : ℝ) (params : ModelParameters) :
    (params.b = 0 → logisticRegression.predict x params = 0) ∧
    (params.b ≠ 0 →
      logisticRegression.predict x params = -params.a * x / params.b) := by
  constructor
  · intro h
    show logisticPredict x params = 0
    unfold logisticPredict
    rw [if_pos h]
  · intro h
    show logisticPredict x params = -params.a * x / params.b
    unfold logisticPredict
    rw [if_neg h]

/-- Witness for C10 at a concrete input with `b ≠ 0`. -/
theorem claimC10_witness :
    logisticRegression.predict 3 ⟨1, 2⟩ = -1 * 3 / 2 :=
  (claimC10_logistic_predict 3 ⟨1, 2⟩).2 (by norm_num)

/-! ## Claim C5: loss non-negativity -/

theorem clamped_le_one_sub (p : ℝ) :
    max (1e-7 : ℝ) (min (1 - 1e-7) p) ≤ 1 - 1e-7 :=
  max_le (by norm_num) (min_le_left _ _)

theorem le_clamped (p : ℝ) :
    (1e-7 : ℝ) ≤ max (1e-7 : ℝ) (min (1 - 1e-7) p) :=
  le_max_left _ _

theorem logisticLossTerm_nonpos (params : ModelParameters) (p : DataPoint) :
    logisticLossTerm params p ≤ 0 := by
  unfold logisticLossTerm
  set pred := 1 / (1 + Real.exp (-(params.a * p.x + params.b * p.y))) with hpred
  split
  · exact Real.log_nonpos
      (le_trans (by norm_num) (le_clamped pred))
      (le_trans (clamped_le_one_sub pred) (by norm_num))
  · have h1 := le_clamped pred
    have h2 := clamped_le_one_sub pred
    exact Real.log_nonpos (by linarith) (by linarith)

/-- Claim C5: for each of the three problems, `computeLoss(data, params) ≥ 0`
for all data and all parameters. -/
theorem claimC5_loss_nonneg (data : List DataPoint) (params : ModelParameters) :
    0 ≤ linearRegression.computeLoss data params ∧
    0 ≤ logisticRegression.computeLoss data params ∧
    0 ≤ polynomialRegression.computeLoss data params := by
  refine ⟨?_, ?_, ?_⟩
  · show 0 ≤ linearComputeLoss data params
    rw [linearComputeLoss_eq_sum]
    split
    · exact le_refl 0
    · refine div_nonneg (List.sum_nonneg ?_) (Nat.cast_nonneg _)
      intro v hv
      obtain ⟨p, _, rfl⟩ := List.mem_map.1 hv
      exact mul_self_nonneg _
  · show 0 ≤ logisticComputeLoss data params
    rw [logisticComputeLoss_eq_sum]
    split
    · exact le_refl 0
    · refine div_nonneg ?_ (Nat.cast_nonneg _)
      rw [neg_nonneg]
      have hle : ((data.map (logisticLossTerm params)).sum) ≤
          ((data.map fun _ => (0 : ℝ)).sum) :=
        List.sum_le_sum (fun p _ => logisticLossTerm_nonpos params p)
      simpa using hle
  · show 0 ≤ polynomialComputeLoss data params
    rw [polynomialComputeLoss_eq_sum]
    split
    · exact le_refl 0
    · refine div_nonneg (List.sum_nonneg ?_) (Nat.cast_nonneg _)
      intro v hv
      obtain ⟨p, _, rfl⟩ := List.mem_map.1 hv
      exact mul_self_nonneg _

/-! ## Claim C6: landscape grid shape -/

theorem getD_range_map {α : Type} (f : ℕ → α) (d : α) (n i : ℕ) (h : i < n) :
    ((List.range n).map f).getD i d = f i := by
  rw [List.getD_eq_getElem _ _ (by simpa using h)]
  simp

/-- The default `LossLandscapePoint` used by `List.getD` below. -/
def zeroLandscapePoint : LossLandscapePoint := ⟨0, 0, 0, 0, 0⟩

theorem computeLossLandscape_getD (data : List DataPoint)
    (model : ProblemConfig) (gridSize : ℕ) (paramRange : ParamRange)
    {i j : ℕ} (hi : i < gridSize) (hj : j < gridSize) :
    ((computeLossLandscape data model gridSize paramRange).getD i []).getD j
        zeroLandscapePoint =
      ⟨paramRange.min + (i : ℝ) *
          ((paramRange.max - paramRange.min) / ((gridSize : ℝ) - 1)),
       paramRange.min + (j : ℝ) *
          ((paramRange.max - paramRange.min) / ((gridSize : ℝ) - 1)),
       model.computeLoss data
         ⟨paramRange.min + (i : ℝ) *
            ((paramRange.max - paramRange.min) / ((gridSize : ℝ) - 1)),
          paramRange.min + (j : ℝ) *
            ((paramRange.max - paramRange.min) / ((gridSize : ℝ) - 1))⟩,
       (model.computeGradient data
         ⟨paramRange.min + (i : ℝ) *
            ((paramRange.max - paramRange.min) / ((gridSize : ℝ) - 1)),
          paramRange.min + (j : ℝ) *
            ((paramRange.max - paramRange.min) / ((gridSize : ℝ) - 1))⟩).a,
       (model.computeGradient data
         ⟨paramRange.min + (i : ℝ) *
            ((paramRange.max - paramRange.min) / ((gridSize : ℝ) - 1)),
          paramRange.min + (j : ℝ) *
            ((paramRange.max - paramRange.min) / ((gridSize : ℝ) - 1))⟩).b⟩ := by
  simp only [computeLossLandscape]
  rw [getD_range_map _ _ _ _ hi, getD_range_map _ _ _ _ hj]

/-- Claim C6: for every data array, problem model, resolution `R ≥ 2` and
parameter range, `computeLossLandscape` returns exactly `R` rows of exactly
`R` points; the point at indices `(i, j)` has
`a = min + i/(R-1)·(max-min)`, `b = min + j/(R-1)·(max-min)` and
`loss = computeLoss(data, {a, b})`, and the corner coordinates span exactly
`[range.min, range.max]`. -/
theorem claimC6_landscape_shape (data : List DataPoint) (model : ProblemConfig)
    (gridSize : ℕ) (paramRange : ParamRange) (hR : 2 ≤ gridSize) :
    (computeLossLandscape data model gridSize paramRange).length = gridSize ∧
    (∀ row ∈ computeLossLandscape data model gridSize paramRange,
      row.length = gridSize) ∧
    (∀ i j : ℕ, i < gridSize → j < gridSize →
      (((computeLossLandscape data model gridSize paramRange).getD i []).getD j
          zeroLandscapePoint).a =
        paramRange.min + (i : ℝ) / ((gridSize : ℝ) - 1) *
          (paramRange.max - paramRange.min) ∧
      (((computeLossLandscape data model gridSize paramRange).getD i []).getD j
          zeroLandscapePoint).b =
        paramRange.min + (j : ℝ) / ((gridSize : ℝ) - 1) *
          (paramRange.max - paramRange.min) ∧
      (((computeLossLandscape data model gridSize paramRange).getD i []).getD j
          zeroLandscapePoint).loss =
        model.computeLoss data
          ⟨(((computeLossLandscape data model gridSize paramRange).getD i []).getD j
              zeroLandscapePoint).a,
           (((computeLossLandscape data model gridSize paramRange).getD i []).getD j
              zeroLandscapePoint).b⟩) ∧
    (((computeLossLandscape data model gridSize paramRange).getD 0 []).getD 0
        zeroLandscapePoint).a = paramRange.min ∧
    (((computeLossLandscape data model gridSize paramRange).getD 0 []).getD 0
        zeroLandscapePoint).b = paramRange.min ∧
    (((computeLossLandscape data model gridSize paramRange).getD (gridSize - 1) []).getD
        (gridSize - 1) zeroLandscapePoint).a = paramRange.max ∧
    (((computeLossLandscape data model gridSize paramRange).getD (gridSize - 1) []).getD
        (gridSize - 1) zeroLandscapePoint).b = paramRange.max := by
  have h0 : 0 < gridSize := lt_of_lt_of_le (by norm_num) hR
  have hcast : (2 : ℝ) ≤ (gridSize : ℝ) := by exact_mod_cast hR
  have hne : ((gridSize : ℝ) - 1) ≠ 0 := by linarith
  have hsub : ((gridSize - 1 : ℕ) : ℝ) = (gridSize : ℝ) - 1 := by
    have h1 : 1 ≤ gridSize := le_trans (by norm_num) hR
    push_cast [Nat.cast_sub h1]
    ring
  have hlt : gridSize - 1 < gridSize := by omega
  refine ⟨?_, ?_, ?_, ?_, ?_, ?_, ?_⟩
  · simp [computeLossLandscape]
  · intro row hrow
    simp only [computeLossLandscape, List.mem_map] at hrow
    obtain ⟨i, _, rfl⟩ := hrow
    simp
  · intro i j hi hj
    rw [computeLossLandscape_getD data model gridSize paramRange hi hj]
    refine ⟨by ring, by ring, rfl⟩
  · rw [computeLossLandscape_getD data model gridSize paramRange h0 h0]
    simp
  · rw [computeLossLandscape_getD data model gridSize paramRange h0 h0]
    simp
  · rw [computeLossLandscape_getD data model gridSize paramRange hlt hlt]
    show paramRange.min + ((gridSize - 1 : ℕ) : ℝ) *
        ((paramRange.max - paramRange.min) / ((gridSize : ℝ) - 1)) = paramRange.max
    rw [hsub]
    field_simp
  · rw [computeLossLandscape_getD data model gridSize paramRange hlt hlt]
    show paramRange.min + ((gridSize - 1 : ℕ) : ℝ) *
        ((paramRange.max - paramRange.min) / ((gridSize : ℝ) - 1)) = paramRange.max
    rw [hsub]
    field_simp

/-- Witness for C6 at resolution `2` over the range `[0, 1]` with the linear
model and empty data. -/
theorem claimC6_witness :
    (computeLossLandscape [] linearRegression 2 ⟨0, 1⟩).length = 2 ∧
    (∀ row ∈ computeLossLandscape [] linearRegression 2 ⟨0, 1⟩,
      row.length = 2) ∧
    (∀ i j : ℕ, i < 2 → j < 2 →
      (((computeLossLandscape [] linearRegression 2 ⟨0, 1⟩).getD i []).getD j
          zeroLandscapePoint).a =
        ParamRange.min ⟨0, 1⟩ + (i : ℝ) / ((2 : ℝ) - 1) *
          (ParamRange.max ⟨0, 1⟩ - ParamRange.min ⟨0, 1⟩) ∧
      (((computeLossLandscape [] linearRegression 2 ⟨0, 1⟩).getD i []).getD j
          zeroLandscapePoint).b =
        ParamRange.min ⟨0, 1⟩ + (j : ℝ) / ((2 : ℝ) - 1) *
          (ParamRange.max ⟨0, 1⟩ - ParamRange.min ⟨0, 1⟩) ∧
      (((computeLossLandscape [] linearRegression 2 ⟨0, 1⟩).getD i []).getD j
          zeroLandscapePoint).loss =
        linearRegression.computeLoss []
          ⟨(((computeLossLandscape [] linearRegression 2 ⟨0, 1⟩).getD i []).getD j
              zeroLandscapePoint).a,
           (((computeLossLandscape [] linearRegression 2 ⟨0, 1⟩).getD i []).getD j
              zeroLandscapePoint).b⟩) ∧
    (((computeLossLandscape [] linearRegression 2 ⟨0, 1⟩).getD 0 []).getD 0
        zeroLandscapePoint).a = ParamRange.min ⟨0, 1⟩ ∧
    (((computeLossLandscape [] linearRegression 2 ⟨0, 1⟩).getD 0 []).getD 0
        zeroLandscapePoint).b = ParamRange.min ⟨0, 1⟩ ∧
    (((computeLossLandscape [] linearRegression 2 ⟨0, 1⟩).getD (2 - 1) []).getD
        (2 - 1) zeroLandscapePoint).a = ParamRange.max ⟨0, 1⟩ ∧
    (((computeLossLandscape [] linearRegression 2 ⟨0, 1⟩).getD (2 - 1) []).getD
        (2 - 1) zeroLandscapePoint).b = ParamRange.max ⟨0, 1⟩ :=
  claimC6_landscape_shape [] linearRegression 2 ⟨0, 1⟩ (by norm_num)

/-! ## Claim C8: contour levels -/

/-- The spec's notion (claim C8) of a list of thresholds "log-spaced between
`lo` and `hi`": the list starts at `lo`, ends at `hi`, and its logarithms are
in arithmetic progression — equivalently, for positive entries, every interior
element is the geometric mean of its two neighbours.  This definition follows
the spec's words; it is compared against the source's
`generateContourLevels`. -/
def isLogSpacedBetween (lo hi : ℝ) (levels : List ℝ) : Prop :=
  levels.head? = some lo ∧ levels.getLast? = some hi ∧
  ∀ i : ℕ, i + 2 < levels.length →
    levels.getD (i + 1) 0 * levels.getD (i + 1) 0 =
      levels.getD i 0 * levels.getD (i + 2) 0

/-- A 1×2 landscape whose two sampled losses are `1` and `9`. -/
noncomputable def contourCexLandscape : List (List LossLandscapePoint) :=
  [[⟨0, 0, 1, 0, 0⟩, ⟨0, 0, 9, 0, 0⟩]]

/-- Counterexample to claim C8: on a sampled landscape with losses `{1, 9}`
and `numLevels = 3`, `generateContourLevels` returns `[1, 5, 9]` — the
arithmetic (not logarithmic) subdivision.  For every positive `δ` this list is
not log-spaced between `min(loss)+δ` and `max(loss)+δ` (its first element is
`min(loss)` itself, not `min(loss)+δ`), and it is not log-spaced under any
choice of endpoints either, because `5² ≠ 1·9`. -/
theorem claimC8_counterexample :
    generateContourLevels contourCexLandscape 3 = [1, 5, 9] ∧
    listMin 0 (landscapeLosses contourCexLandscape) = 1 ∧
    listMax 0 (landscapeLosses contourCexLandscape) = 9 ∧
    (∀ delta : ℝ, 0 < delta →
      ¬ isLogSpacedBetween (1 + delta) (9 + delta) [1, 5, 9]) ∧
    ¬ ((5 : ℝ) * 5 = 1 * 9) := by
  have hmin : listMin 0 (landscapeLosses contourCexLandscape) = 1 := by
    simp [listMin, landscapeLosses, contourCexLandscape]
  have hmax : listMax 0 (landscapeLosses contourCexLandscape) = 9 := by
    simp [listMax, landscapeLosses, contourCexLandscape]
  refine ⟨?_, hmin, hmax, ?_, by norm_num⟩
  · simp only [generateContourLevels, hmin, hmax]
    norm_num [List.range_succ]
  · intro delta hdelta h
    obtain ⟨h1, -, -⟩ := h
    simp only [List.head?_cons, Option.some_inj] at h1
    linarith

theorem generateContourLevels_getD (landscape : List (List LossLandscapePoint))
    (numLevels : ℕ) {i : ℕ} (hi : i < numLevels) :
    (generateContourLevels landscape numLevels).getD i 0 =
      listMin 0 (landscapeLosses landscape) + (i : ℝ) *
        ((listMax 0 (landscapeLosses landscape) -
          listMin 0 (landscapeLosses landscape)) / ((numLevels : ℝ) - 1)) := by
  simp only [generateContourLevels]
  rw [getD_range_map _ _ _ _ hi]

theorem drawContoursThresholds_getD (lossGrid : List (List ℝ))
    {i : ℕ} (hi : i < 14) :
    (drawContoursThresholds lossGrid).getD i 0 =
      Real.exp (Real.log (listMin 0 lossGrid.flatten + 0.001) + ((i : ℝ) + 1) *
        ((Real.log (listMax 0 lossGrid.flatten + 0.001) -
          Real.log (listMin 0 lossGrid.flatten + 0.001)) / 15)) - 0.001 := by
  simp only [drawContoursThresholds]
  rw [getD_range_map _ _ _ _ (by omega : i < 15 - 1)]
  norm_num

/-- Claim C8 amended: `generateContourLevels(landscape, numLevels)` returns
`numLevels` thresholds that are *linearly* (evenly) spaced between
`min(loss)` and `max(loss)` over the sampled grid — first element `min(loss)`,
last element `max(loss)`, consecutive differences all
`(max(loss)-min(loss))/(numLevels-1)`.  Log-spaced thresholds appear only in
`drawContours` of `LossLandscape.svelte`, with the level count fixed at
`numContours = 15`: it produces `14` thresholds whose `δ`-shifted values
(`δ = 0.001`) have equally spaced logarithms and lie strictly between
`min(loss)+δ` and `max(loss)+δ` whenever `0 ≤ min(loss) < max(loss)`. -/
theorem claimC8_amended :
    (∀ (landscape : List (List LossLandscapePoint)) (numLevels : ℕ),
      (generateContourLevels landscape numLevels).length = numLevels) ∧
    (∀ (landscape : List (List LossLandscapePoint)) (numLevels : ℕ),
      2 ≤ numLevels →
        (generateContourLevels landscape numLevels).getD 0 0 =
          listMin 0 (landscapeLosses landscape) ∧
        (generateContourLevels landscape numLevels).getD (numLevels - 1) 0 =
          listMax 0 (landscapeLosses landscape) ∧
        (∀ i : ℕ, i + 1 < numLevels →
          (generateContourLevels landscape numLevels).getD (i + 1) 0 -
            (generateContourLevels landscape numLevels).getD i 0 =
          (listMax 0 (landscapeLosses landscape) -
            listMin 0 (landscapeLosses landscape)) / ((numLevels : ℝ) - 1))) ∧
    (∀ lossGrid : List (List ℝ), (drawContoursThresholds lossGrid).length = 14) ∧
    (∀ (lossGrid : List (List ℝ)) (i : ℕ), i + 1 < 14 →
      Real.log ((drawContoursThresholds lossGrid).getD (i + 1) 0 + 0.001) -
        Real.log ((drawContoursThresholds lossGrid).getD i 0 + 0.001) =
      (Real.log (listMax 0 lossGrid.flatten + 0.001) -
        Real.log (listMin 0 lossGrid.flatten + 0.001)) / 15) ∧
    (∀ lossGrid : List (List ℝ),
      0 ≤ listMin 0 lossGrid.flatten →
      listMin 0 lossGrid.flatten < listMax 0 lossGrid.flatten →
      ∀ i : ℕ, i < 14 →
        listMin 0 lossGrid.flatten + 0.001 <
          (drawContoursThresholds lossGrid).getD i 0 + 0.001 ∧
        (drawContoursThresholds lossGrid).getD i 0 + 0.001 <
          listMax 0 lossGrid.flatten + 0.001) := by
  refine ⟨?_, ?_, ?_, ?_, ?_⟩
  · intro landscape numLevels
    simp [generateContourLevels]
  · intro landscape numLevels hn
    have h0 : 0 < numLevels := by omega
    have hcast : (2 : ℝ) ≤ (numLevels : ℝ) := by exact_mod_cast hn
    have hne : ((numLevels : ℝ) - 1) ≠ 0 := by linarith
    have hsub : ((numLevels - 1 : ℕ) : ℝ) = (numLevels : ℝ) - 1 := by
      push_cast [Nat.cast_sub (by omega : 1 ≤ numLevels)]
      ring
    refine ⟨?_, ?_, ?_⟩
    · rw [generateContourLevels_getD landscape numLevels h0]
      simp
    · rw [generateContourLevels_getD landscape numLevels (by omega : numLevels - 1 < numLevels)]
      rw [hsub]
      field_simp
    · intro i hi
      rw [generateContourLevels_getD landscape numLevels hi,
        generateContourLevels_getD landscape numLevels (by omega : i < numLevels)]
      push_cast
      ring
  · intro lossGrid
    simp [drawContoursThresholds]
  · intro lossGrid i hi
    rw [drawContoursThresholds_getD lossGrid (by omega : i + 1 < 14),
      drawContoursThresholds_getD lossGrid (by omega : i < 14)]
    rw [sub_add_cancel, sub_add_cancel, Real.log_exp, Real.log_exp]
    push_cast
    ring
  · intro lossGrid hmin hlt i hi
    have hminpos : (0 : ℝ) < listMin 0 lossGrid.flatten + 0.001 := by linarith
    have hmaxpos : (0 : ℝ) < listMax 0 lossGrid.flatten + 0.001 := by linarith
    have hloglt : Real.log (listMin 0 lossGrid.flatten + 0.001) <
        Real.log (listMax 0 lossGrid.flatten + 0.001) :=
      Real.log_lt_log hminpos (by linarith)
    have hstep : (0 : ℝ) < (Real.log (listMax 0 lossGrid.flatten + 0.001) -
        Real.log (listMin 0 lossGrid.flatten + 0.001)) / 15 :=
      div_pos (by linarith) (by norm_num)
    rw [drawContoursThresholds_getD lossGrid hi, sub_add_cancel]
    constructor
    · calc listMin 0 lossGrid.flatten + 0.001
          = Real.exp (Real.log (listMin 0 lossGrid.flatten + 0.001)) :=
            (Real.exp_log hminpos).symm
        _ < _ := by
            apply Real.exp_lt_exp.2
            have : (0 : ℝ) < ((i : ℝ) + 1) := by positivity
            nlinarith
    · calc Real.exp (Real.log (listMin 0 lossGrid.flatten + 0.001) + ((i : ℝ) + 1) *
            ((Real.log (listMax 0 lossGrid.flatten + 0.001) -
              Real.log (listMin 0 lossGrid.flatten + 0.001)) / 15))
          < Real.exp (Real.log (listMax 0 lossGrid.flatten + 0.001)) := by
            apply Real.exp_lt_exp.2
            have hi15 : ((i : ℝ) + 1) < 15 := by
              have : (i : ℝ) < 14 := by exact_mod_cast hi
              linarith
            have h15 : Real.log (listMax 0 lossGrid.flatten + 0.001) =
                Real.log (listMin 0 lossGrid.flatten + 0.001) + 15 *
                  ((Real.log (listMax 0 lossGrid.flatten + 0.001) -
                    Real.log (listMin 0 lossGrid.flatten + 0.001)) / 15) := by
              field_simp
            rw [h15]
            have := mul_lt_mul_of_pos_right hi15 hstep
            linarith
        _ = listMax 0 lossGrid.flatten + 0.001 := Real.exp_log hmaxpos

/-- Witness for C8 amended: concrete instantiations discharging the
hypotheses — even spacing on the `{1, 9}` landscape with `numLevels = 3`, and
the log-gap identity of the `drawContours` thresholds on the grid `[[1, 9]]`. -/
theorem claimC8_amended_witness :
    ((generateContourLevels contourCexLandscape 3).getD 1 0 -
      (generateContourLevels contourCexLandscape 3).getD 0 0 =
      (listMax 0 (landscapeLosses contourCexLandscape) -
        listMin 0 (landscapeLosses contourCexLandscape)) / ((3 : ℝ) - 1)) ∧
    (Real.log ((drawContoursThresholds [[1, 9]]).getD 1 0 + 0.001) -
      Real.log ((drawContoursThresholds [[1, 9]]).getD 0 0 + 0.001) =
      (Real.log (listMax 0 (List.flatten [[1, 9]]) + 0.001) -
        Real.log (listMin 0 (List.flatten [[1, 9]]) + 0.001)) / 15) ∧
    (listMin 0 (List.flatten [[(1 : ℝ), 9]]) + 0.001 <
      (drawContoursThresholds [[1, 9]]).getD 0 0 + 0.001) :=
  ⟨(claimC8_amended.2.1 contourCexLandscape 3 (by norm_num)).2.2 0 (by norm_num),
   claimC8_amended.2.2.2.1 [[1, 9]] 0 (by norm_num),
   (claimC8_amended.2.2.2.2 [[1, 9]]
      (by simp [listMin])
      (by simp [listMin, listMax]) 0 (by norm_num)).1⟩

/-! ## Claim C7: generated data counts -/

theorem countP_range_lt (n k : ℕ) :
    (List.range n).countP (fun i => decide (i < k)) = min k n := by
  induction n with
  | zero => simp
  | succ n ih =>
    rw [List.range_succ, List.countP_append, ih]
    by_cases h : n < k
    · simp [List.countP_cons, h]
      omega
    · simp [List.countP_cons, h]
      omega

theorem countP_isTraining_range_build (n k : ℕ) (f : ℕ → DataPoint)
    (hf : ∀ i, (f i).isTraining = decide (i < k)) :
    (((List.range n).map f).countP (·.isTraining)) = min k n := by
  rw [List.countP_map]
  have hcomp : ((fun p : DataPoint => p.isTraining) ∘ f) =
      fun i => decide (i < k) := funext fun i => hf i
  rw [hcomp, countP_range_lt]

theorem floor_mul_le_self (n : ℕ) (r : ℝ) (hr : r ≤ 1) :
    ⌊(n : ℝ) * r⌋₊ ≤ n := by
  calc ⌊(n : ℝ) * r⌋₊ ≤ ⌊(n : ℝ)⌋₊ :=
        Nat.floor_le_floor (mul_le_of_le_one_right (Nat.cast_nonneg n) hr)
    _ = n := Nat.floor_natCast n

theorem linearGenerateData_counts (numPoints : ℕ) (trainSplit noiseLevel : ℝ)
    (rand : ℕ → ℝ) (hr1 : trainSplit ≤ 1) :
    (linearGenerateData numPoints trainSplit noiseLevel rand).length = numPoints ∧
    (linearGenerateData numPoints trainSplit noiseLevel rand).countP (·.isTraining) =
      ⌊(numPoints : ℝ) * trainSplit⌋₊ := by
  constructor
  · simp [linearGenerateData]
  · have h := countP_isTraining_range_build numPoints
      ⌊(numPoints : ℝ) * trainSplit⌋₊
      (fun i =>
        { x := ((i : ℝ) / ((numPoints : ℝ) - 1)) * 4 - 2 + (rand (2 * i) - 0.5) * 0.2,
          y := linearTrueParameters.a *
              (((i : ℝ) / ((numPoints : ℝ) - 1)) * 4 - 2 + (rand (2 * i) - 0.5) * 0.2) +
            linearTrueParameters.b + (rand (2 * i + 1) - 0.5) * noiseLevel * 2,
          isTraining := decide (i < ⌊(numPoints : ℝ) * trainSplit⌋₊) })
      (fun i => rfl)
    rw [show linearGenerateData numPoints trainSplit noiseLevel rand =
        (List.range numPoints).map _ from rfl, h]
    exact min_eq_left (floor_mul_le_self numPoints trainSplit hr1)

theorem polynomialGenerateData_counts (numPoints : ℕ) (trainSplit noiseLevel : ℝ)
    (rand : ℕ → ℝ) (hr1 : trainSplit ≤ 1) :
    (polynomialGenerateData numPoints trainSplit noiseLevel rand).length = numPoints ∧
    (polynomialGenerateData numPoints trainSplit noiseLevel rand).countP (·.isTraining) =
      ⌊(numPoints : ℝ) * trainSplit⌋₊ := by
  constructor
  · simp [polynomialGenerateData]
  · have h := countP_isTraining_range_build numPoints
      ⌊(numPoints : ℝ) * trainSplit⌋₊
      (fun i =>
        { x := ((i : ℝ) / ((numPoints : ℝ) - 1)) * 4 - 2,
          y := polynomialTrueParameters.a *
              (((i : ℝ) / ((numPoints : ℝ) - 1)) * 4 - 2) *
              (((i : ℝ) / ((numPoints : ℝ) - 1)) * 4 - 2) +
            polynomialTrueParameters.b * (((i : ℝ) / ((numPoints : ℝ) - 1)) * 4 - 2) +
            (rand i - 0.5) * noiseLevel * 2,
          isTraining := decide (i < ⌊(numPoints : ℝ) * trainSplit⌋₊) })
      (fun i => rfl)
    rw [show polynomialGenerateData numPoints trainSplit noiseLevel rand =
        (List.range numPoints).map _ from rfl, h]
    exact min_eq_left (floor_mul_le_self numPoints trainSplit hr1)

theorem logisticGenerateData_counts (numPoints : ℕ) (trainSplit noiseLevel : ℝ)
    (rand : ℕ → ℝ) (hr1 : trainSplit ≤ 1) :
    (logisticGenerateData numPoints trainSplit noiseLevel rand).length = numPoints ∧
    (logisticGenerateData numPoints trainSplit noiseLevel rand).countP (·.isTraining) =
      ⌊((numPoints / 2 : ℕ) : ℝ) * trainSplit⌋₊ +
        ⌊((numPoints - numPoints / 2 : ℕ) : ℝ) * trainSplit⌋₊ := by
  have hsplit : logisticGenerateData numPoints trainSplit noiseLevel rand =
      ((List.range (numPoints / 2)).map fun (i : ℕ) =>
        ({ x := -0.8 + (rand (2 * i) - 0.5) * (0.4 + noiseLevel * 0.5),
           y := -0.5 + (rand (2 * i + 1) - 0.5) * (0.4 + noiseLevel * 0.5),
           isTraining := decide (i < ⌊((numPoints / 2 : ℕ) : ℝ) * trainSplit⌋₊),
           label := some 0 } : DataPoint)) ++
      ((List.range (numPoints - numPoints / 2)).map fun (i : ℕ) =>
        ({ x := 0.8 + (rand (2 * (numPoints / 2) + 2 * i) - 0.5) * (0.4 + noiseLevel * 0.5),
           y := 0.5 + (rand (2 * (numPoints / 2) + 2 * i + 1) - 0.5) * (0.4 + noiseLevel * 0.5),
           isTraining := decide (i < ⌊((numPoints - numPoints / 2 : ℕ) : ℝ) * trainSplit⌋₊),
           label := some 1 } : DataPoint)) := rfl
  constructor
  · rw [hsplit]
    simp
    omega
  · rw [hsplit, List.countP_append,
      countP_isTraining_range_build _ _ _ (fun i => rfl),
      countP_isTraining_range_build _ _ _ (fun i => rfl),
      min_eq_left (floor_mul_le_self (numPoints / 2) trainSplit hr1),
      min_eq_left (floor_mul_le_self (numPoints - numPoints / 2) trainSplit hr1)]

/-- Counterexample to claim C7: for the logistic problem with `numPoints = 2`
and `trainRatio = 1/2`, `generateData` marks `0` points as training although
`floor(numPoints·trainRatio) = 1` (each of the two per-class loops computes
`floor(1·1/2) = 0`). -/
theorem claimC7_counterexample :
    (logisticGenerateData 2 (1 / 2) 0 (fun _ => 0)).length = 2 ∧
    (logisticGenerateData 2 (1 / 2) 0 (fun _ => 0)).countP (·.isTraining) = 0 ∧
    ⌊(2 : ℝ) * (1 / 2)⌋₊ = 1 ∧ (0 : ℕ) ≠ 1 := by
  have h := logisticGenerateData_counts 2 (1 / 2) 0 (fun _ => 0) (by norm_num)
  have hfl : ⌊((1 : ℕ) : ℝ) * (1 / 2)⌋₊ = 0 := by
    rw [Nat.floor_eq_zero]
    norm_num
  refine ⟨h.1, ?_, ?_, by norm_num⟩
  · rw [h.2]
    norm_num [hfl]
  · norm_num

/-- Claim C7 amended: for every `numPoints > 0`, `trainRatio ∈ (0,1)`, noise
level, random stream and shuffle outcome, the linear and polynomial
`generateData` return exactly `numPoints` points of which exactly
`floor(numPoints·trainRatio)` are marked training; the logistic
`generateData` also returns exactly `numPoints` points, but it marks
`floor(floor(numPoints/2)·trainRatio) + floor((numPoints-floor(numPoints/2))·trainRatio)`
of them as training, which can be smaller than `floor(numPoints·trainRatio)`. -/
theorem claimC7_amended (numPoints : ℕ) (trainSplit noiseLevel : ℝ)
    (rand : ℕ → ℝ) (_hn : 0 < numPoints) (_hr0 : 0 < trainSplit)
    (hr1 : trainSplit < 1) :
    (∀ shuffled : List DataPoint,
      shuffled.Perm (linearGenerateData numPoints trainSplit noiseLevel rand) →
      shuffled.length = numPoints ∧
      shuffled.countP (·.isTraining) = ⌊(numPoints : ℝ) * trainSplit⌋₊) ∧
    (∀ shuffled : List DataPoint,
      shuffled.Perm (polynomialGenerateData numPoints trainSplit noiseLevel rand) →
      shuffled.length = numPoints ∧
      shuffled.countP (·.isTraining) = ⌊(numPoints : ℝ) * trainSplit⌋₊) ∧
    (∀ shuffled : List DataPoint,
      shuffled.Perm (logisticGenerateData numPoints trainSplit noiseLevel rand) →
      shuffled.length = numPoints ∧
      shuffled.countP (·.isTraining) =
        ⌊((numPoints / 2 : ℕ) : ℝ) * trainSplit⌋₊ +
          ⌊((numPoints - numPoints / 2 : ℕ) : ℝ) * trainSplit⌋₊) := by
  have hle : trainSplit ≤ 1 := le_of_lt hr1
  refine ⟨?_, ?_, ?_⟩
  · intro shuffled hperm
    have h := linearGenerateData_counts numPoints trainSplit noiseLevel rand hle
    exact ⟨hperm.length_eq.trans h.1, (hperm.countP_eq _).trans h.2⟩
  · intro shuffled hperm
    have h := polynomialGenerateData_counts numPoints trainSplit noiseLevel rand hle
    exact ⟨hperm.length_eq.trans h.1, (hperm.countP_eq _).trans h.2⟩
  · intro shuffled hperm
    have h := logisticGenerateData_counts numPoints trainSplit noiseLevel rand hle
    exact ⟨hperm.length_eq.trans h.1, (hperm.countP_eq _).trans h.2⟩

/-- Witness for C7 amended at `numPoints = 4`, `trainRatio = 1/2` and the
identity shuffle. -/
theorem claimC7_amended_witness :
    (linearGenerateData 4 (1 / 2) 0 (fun _ => 0)).length = 4 ∧
    (linearGenerateData 4 (1 / 2) 0 (fun _ => 0)).countP (·.isTraining) =
      ⌊(4 : ℝ) * (1 / 2)⌋₊ :=
  (claimC7_amended 4 (1 / 2) 0 (fun _ => 0) (by norm_num) (by norm_num)
    (by norm_num)).1 _ (List.Perm.refl _)

/-! ## Claim C1: analytic gradients -/

theorem hasDerivAt_list_sum {α : Type} (l : List α) (F : α → ℝ → ℝ)
    (F' : α → ℝ) (t : ℝ) (h : ∀ p ∈ l, HasDerivAt (F p) (F' p) t) :
    HasDerivAt (fun u => (l.map (fun p => F p u)).sum) ((l.map F').sum) t := by
  induction l with
  | nil => simpa using hasDerivAt_const t (0 : ℝ)
  | cons a tl ih =>
    simp only [List.map_cons, List.sum_cons]
    exact (h a (by simp)).add (ih (fun p hp => h p (by simp [hp])))

theorem linear_loss_hasDerivAt_a (data : List DataPoint) (params : ModelParameters) :
    HasDerivAt (fun t => linearComputeLoss data ⟨t, params.b⟩)
      ((linearComputeGradient data params).a) params.a := by
  by_cases hd : data.length = 0
  · have hfun : (fun t => linearComputeLoss data ⟨t, params.b⟩) = fun _ => (0 : ℝ) := by
      funext t
      rw [linearComputeLoss_eq_sum, if_pos hd]
    have hgrad : (linearComputeGradient data params).a = 0 := by
      rw [linearComputeGradient_eq_sum, if_pos hd]
    rw [hfun, hgrad]
    exact hasDerivAt_const _ _
  · have hfun : (fun t => linearComputeLoss data ⟨t, params.b⟩) =
        fun t => ((data.map fun p => (t * p.x + params.b - p.y) *
          (t * p.x + params.b - p.y)).sum) / (data.length : ℝ) := by
      funext t
      rw [linearComputeLoss_eq_sum, if_neg hd]
    have hgrad : (linearComputeGradient data params).a =
        ((data.map fun p => 2 * (params.a * p.x + params.b - p.y) * p.x).sum) /
          (data.length : ℝ) := by
      rw [linearComputeGradient_eq_sum, if_neg hd]
    rw [hfun, hgrad]
    refine HasDerivAt.div_const ?_ _
    refine hasDerivAt_list_sum data
      (fun p t => (t * p.x + params.b - p.y) * (t * p.x + params.b - p.y))
      (fun p => 2 * (params.a * p.x + params.b - p.y) * p.x) params.a ?_
    intro p _
    have haff : HasDerivAt (fun t : ℝ => t * p.x + params.b - p.y) p.x params.a := by
      simpa using (((hasDerivAt_id params.a).mul_const p.x).add_const params.b).sub_const p.y
    have hmul := haff.mul haff
    convert hmul using 1
    ring

theorem linear_loss_hasDerivAt_b (data : List DataPoint) (params : ModelParameters) :
    HasDerivAt (fun t => linearComputeLoss data ⟨params.a, t⟩)
      ((linearComputeGradient data params).b) params.b := by
  by_cases hd : data.length = 0
  · have hfun : (fun t => linearComputeLoss data ⟨params.a, t⟩) = fun _ => (0 : ℝ) := by
      funext t
      rw [linearComputeLoss_eq_sum, if_pos hd]
    have hgrad : (linearComputeGradient data params).b = 0 := by
      rw [linearComputeGradient_eq_sum, if_pos hd]
    rw [hfun, hgrad]
    exact hasDerivAt_const _ _
  · have hfun : (fun t => linearComputeLoss data ⟨params.a, t⟩) =
        fun t => ((data.map fun p => (params.a * p.x + t - p.y) *
          (params.a * p.x + t - p.y)).sum) / (data.length : ℝ) := by
      funext t
      rw [linearComputeLoss_eq_sum, if_neg hd]
    have hgrad : (linearComputeGradient data params).b =
        ((data.map fun p => 2 * (params.a * p.x + params.b - p.y)).sum) /
          (data.length : ℝ) := by
      rw [linearComputeGradient_eq_sum, if_neg hd]
    rw [hfun, hgrad]
    refine HasDerivAt.div_const ?_ _
    refine hasDerivAt_list_sum data
      (fun p t => (params.a * p.x + t - p.y) * (params.a * p.x + t - p.y))
      (fun p => 2 * (params.a * p.x + params.b - p.y)) params.b ?_
    intro p _
    have haff : HasDerivAt (fun t : ℝ => params.a * p.x + t - p.y) 1 params.b := by
      simpa using ((hasDerivAt_id params.b).const_add (params.a * p.x)).sub_const p.y
    have hmul := haff.mul haff
    convert hmul using 1
    ring

theorem polynomial_loss_hasDerivAt_a (data : List DataPoint) (params : ModelParameters) :
    HasDerivAt (fun t => polynomialComputeLoss data ⟨t, params.b⟩)
      ((polynomialComputeGradient data params).a) params.a := by
  by_cases hd : data.length = 0
  · have hfun : (fun t => polynomialComputeLoss data ⟨t, params.b⟩) = fun _ => (0 : ℝ) := by
      funext t
      rw [polynomialComputeLoss_eq_sum, if_pos hd]
    have hgrad : (polynomialComputeGradient data params).a = 0 := by
      rw [polynomialComputeGradient_eq_sum, if_pos hd]
    rw [hfun, hgrad]
    exact hasDerivAt_const _ _
  · have hfun : (fun t => polynomialComputeLoss data ⟨t, params.b⟩) =
        fun t => ((data.map fun p => (t * p.x * p.x + params.b * p.x - p.y) *
          (t * p.x * p.x + params.b * p.x - p.y)).sum) / (data.length : ℝ) := by
      funext t
      rw [polynomialComputeLoss_eq_sum, if_neg hd]
    have hgrad : (polynomialComputeGradient data params).a =
        ((data.map fun p => 2 * (params.a * p.x * p.x + params.b * p.x - p.y) *
          p.x * p.x).sum) / (data.length : ℝ) := by
      rw [polynomialComputeGradient_eq_sum, if_neg hd]
    rw [hfun, hgrad]
    refine HasDerivAt.div_const ?_ _
    refine hasDerivAt_list_sum data
      (fun p t => (t * p.x * p.x + params.b * p.x - p.y) *
        (t * p.x * p.x + params.b * p.x - p.y))
      (fun p => 2 * (params.a * p.x * p.x + params.b * p.x - p.y) * p.x * p.x)
      params.a ?_
    intro p _
    have haff : HasDerivAt (fun t : ℝ => t * p.x * p.x + params.b * p.x - p.y)
        (p.x * p.x) params.a := by
      have h1 : HasDerivAt (fun t : ℝ => t * (p.x * p.x)) (p.x * p.x) params.a := by
        simpa using (hasDerivAt_id params.a).mul_const (p.x * p.x)
      have h2 : (fun t : ℝ => t * p.x * p.x + params.b * p.x - p.y) =
          fun t : ℝ => t * (p.x * p.x) + params.b * p.x - p.y := by
        funext t
        ring
      rw [h2]
      simpa using (h1.add_const (params.b * p.x)).sub_const p.y
    have hmul := haff.mul haff
    convert hmul using 1
    ring

theorem polynomial_loss_hasDerivAt_b (data : List DataPoint) (params : ModelParameters) :
    HasDerivAt (fun t => polynomialComputeLoss data ⟨params.a, t⟩)
      ((polynomialComputeGradient data params).b) params.b := by
  by_cases hd : data.length = 0
  · have hfun : (fun t => polynomialComputeLoss data ⟨params.a, t⟩) = fun _ => (0 : ℝ) := by
      funext t
      rw [polynomialComputeLoss_eq_sum, if_pos hd]
    have hgrad : (polynomialComputeGradient data params).b = 0 := by
      rw [polynomialComputeGradient_eq_sum, if_pos hd]
    rw [hfun, hgrad]
    exact hasDerivAt_const _ _
  · have hfun : (fun t => polynomialComputeLoss data ⟨params.a, t⟩) =
        fun t => ((data.map fun p => (params.a * p.x * p.x + t * p.x - p.y) *
          (params.a * p.x * p.x + t * p.x - p.y)).sum) / (data.length : ℝ) := by
      funext t
      rw [polynomialComputeLoss_eq_sum, if_neg hd]
    have hgrad : (polynomialComputeGradient data params).b =
        ((data.map fun p => 2 * (params.a * p.x * p.x + params.b * p.x - p.y) *
          p.x).sum) / (data.length : ℝ) := by
      rw [polynomialComputeGradient_eq_sum, if_neg hd]
    rw [hfun, hgrad]
    refine HasDerivAt.div_const ?_ _
    refine hasDerivAt_list_sum data
      (fun p t => (params.a * p.x * p.x + t * p.x - p.y) *
        (params.a * p.x * p.x + t * p.x - p.y))
      (fun p => 2 * (params.a * p.x * p.x + params.b * p.x - p.y) * p.x)
      params.b ?_
    intro p _
    have haff : HasDerivAt (fun t : ℝ => params.a * p.x * p.x + t * p.x - p.y)
        p.x params.b := by
      have h1 : HasDerivAt (fun t : ℝ => t * p.x) p.x params.b := by
        simpa using (hasDerivAt_id params.b).mul_const p.x
      simpa using (h1.const_add (params.a * p.x * p.x)).sub_const p.y
    have hmul := haff.mul haff
    convert hmul using 1
    ring

theorem sigmoid_pos (u : ℝ) : 0 < 1 / (1 + Real.exp (-u)) := by positivity

theorem sigmoid_lt_one (u : ℝ) : 1 / (1 + Real.exp (-u)) < 1 := by
  rw [div_lt_one (by positivity)]
  have := Real.exp_pos (-u)
  linarith

theorem hasDerivAt_sigmoid (u : ℝ) :
    HasDerivAt (fun v => 1 / (1 + Real.exp (-v)))
      ((1 / (1 + Real.exp (-u))) * (1 - 1 / (1 + Real.exp (-u)))) u := by
  have hexp : HasDerivAt (fun v : ℝ => Real.exp (-v)) (Real.exp (-u) * (-1)) u :=
    (hasDerivAt_neg u).exp
  have hden : HasDerivAt (fun v : ℝ => 1 + Real.exp (-v)) (Real.exp (-u) * (-1)) u :=
    hexp.const_add 1
  have hne : (1 + Real.exp (-u)) ≠ 0 := by positivity
  have hinv := hden.inv hne
  have heq : (fun v : ℝ => 1 / (1 + Real.exp (-v))) =
      fun v : ℝ => (1 + Real.exp (-v))⁻¹ := by
    funext v
    rw [one_div]
  rw [heq]
  convert hinv using 1
  have h := Real.exp_pos (-u)
  field_simp
  ring

theorem sum_map_neg {α : Type} (l : List α) (f : α → ℝ) :
    (l.map fun p => -(f p)).sum = -((l.map f).sum) := by
  induction l with
  | nil => simp
  | cons a tl ih =>
    simp [ih]
    ring

/-- The per-point cross-entropy of the *unclamped* logistic loss has the
derivative that `logisticComputeGradient` accumulates, along any
differentiable path `z` through the score. -/
theorem logistic_term_hasDerivAt {z : ℝ → ℝ} {zc t0 : ℝ}
    (hz : HasDerivAt z zc t0) (lab : Option ℤ)
    (hlab : lab = none ∨ lab = some 0 ∨ lab = some 1) :
    HasDerivAt (fun t => if lab = some 1 then
        Real.log (1 / (1 + Real.exp (-(z t))))
      else Real.log (1 - 1 / (1 + Real.exp (-(z t)))))
      (-((1 / (1 + Real.exp (-(z t0))) - (labelOrZero lab : ℝ)) * zc)) t0 := by
  have hS : HasDerivAt (fun t : ℝ => 1 / (1 + Real.exp (-(z t))))
      ((1 / (1 + Real.exp (-(z t0)))) * (1 - 1 / (1 + Real.exp (-(z t0)))) * zc) t0 := by
    simpa [Function.comp] using (hasDerivAt_sigmoid (z t0)).comp t0 hz
  have hSpos := sigmoid_pos (z t0)
  have hSlt := sigmoid_lt_one (z t0)
  rcases hlab with h | h | h
  · subst h
    have hfun : (fun t => if (none : Option ℤ) = some 1 then
        Real.log (1 / (1 + Real.exp (-(z t))))
      else Real.log (1 - 1 / (1 + Real.exp (-(z t))))) =
        fun t => Real.log (1 - 1 / (1 + Real.exp (-(z t)))) := by
      funext t
      simp
    rw [hfun]
    have h1mS := hS.const_sub 1
    have hpos : (0 : ℝ) < 1 - 1 / (1 + Real.exp (-(z t0))) := by linarith
    have hlog := h1mS.log (ne_of_gt hpos)
    convert hlog using 1
    show -((1 / (1 + Real.exp (-(z t0))) - ((0 : ℤ) : ℝ)) * zc) = _
    field_simp
    ring
  · subst h
    have hfun : (fun t => if (some 0 : Option ℤ) = some 1 then
        Real.log (1 / (1 + Real.exp (-(z t))))
      else Real.log (1 - 1 / (1 + Real.exp (-(z t))))) =
        fun t => Real.log (1 - 1 / (1 + Real.exp (-(z t)))) := by
      funext t
      simp
    rw [hfun]
    have h1mS := hS.const_sub 1
    have hpos : (0 : ℝ) < 1 - 1 / (1 + Real.exp (-(z t0))) := by linarith
    have hlog := h1mS.log (ne_of_gt hpos)
    convert hlog using 1
    show -((1 / (1 + Real.exp (-(z t0))) - ((0 : ℤ) : ℝ)) * zc) = _
    field_simp
    ring
  · subst h
    have hfun : (fun t => if (some 1 : Option ℤ) = some 1 then
        Real.log (1 / (1 + Real.exp (-(z t))))
      else Real.log (1 - 1 / (1 + Real.exp (-(z t))))) =
        fun t => Real.log (1 / (1 + Real.exp (-(z t)))) := by
      funext t
      simp
    rw [hfun]
    have hlog := hS.log (ne_of_gt hSpos)
    convert hlog using 1
    show -((1 / (1 + Real.exp (-(z t0))) - ((1 : ℤ) : ℝ)) * zc) = _
    push_cast
    rw [eq_div_iff (ne_of_gt hSpos)]
    ring

/-- The *unclamped* mean binary cross-entropy: `logisticComputeLoss` with the
`ε`-clamp removed.  This is the function whose analytic gradient the source's
`logisticComputeGradient` computes (see the amended claim C1). -/
noncomputable def logisticLossUnclamped (data : List DataPoint)
    (params : ModelParameters) : ℝ :=
  if data.length = 0 then 0 else
    (-((data.map fun p =>
      if p.label = some 1 then
        Real.log (1 / (1 + Real.exp (-(params.a * p.x + params.b * p.y))))
      else
        Real.log (1 - 1 / (1 + Real.exp (-(params.a * p.x + params.b * p.y))))).sum)) /
      (data.length : ℝ)

theorem logisticUnclamped_hasDerivAt_a (data : List DataPoint)
    (params : ModelParameters)
    (hlab : ∀ p ∈ data, p.label = none ∨ p.label = some 0 ∨ p.label = some 1) :
    HasDerivAt (fun t => logisticLossUnclamped data ⟨t, params.b⟩)
      ((logisticComputeGradient data params).a) params.a := by
  by_cases hd : data.length = 0
  · have hfun : (fun t => logisticLossUnclamped data ⟨t, params.b⟩) =
        fun _ => (0 : ℝ) := by
      funext t
      unfold logisticLossUnclamped
      rw [if_pos hd]
    have hgrad : (logisticComputeGradient data params).a = 0 := by
      rw [logisticComputeGradient_eq_sum, if_pos hd]
    rw [hfun, hgrad]
    exact hasDerivAt_const _ _
  · have hfun : (fun t => logisticLossUnclamped data ⟨t, params.b⟩) =
        fun t => (-((data.map fun p =>
          if p.label = some 1 then
            Real.log (1 / (1 + Real.exp (-(t * p.x + params.b * p.y))))
          else
            Real.log (1 - 1 / (1 + Real.exp (-(t * p.x + params.b * p.y))))).sum)) /
          (data.length : ℝ) := by
      funext t
      unfold logisticLossUnclamped
      rw [if_neg hd]
    have hgrad : (logisticComputeGradient data params).a =
        ((data.map fun p => (1 / (1 + Real.exp (-(params.a * p.x + params.b * p.y))) -
          (labelOrZero p.label : ℝ)) * p.x).sum) / (data.length : ℝ) := by
      rw [logisticComputeGradient_eq_sum, if_neg hd]
    have hsum := hasDerivAt_list_sum data
      (fun p t => if p.label = some 1 then
          Real.log (1 / (1 + Real.exp (-(t * p.x + params.b * p.y))))
        else Real.log (1 - 1 / (1 + Real.exp (-(t * p.x + params.b * p.y)))))
      (fun p => -((1 / (1 + Real.exp (-(params.a * p.x + params.b * p.y))) -
        (labelOrZero p.label : ℝ)) * p.x)) params.a ?_
    · have hdiv := (hsum.neg).div_const (data.length : ℝ)
      have hkey : -((data.map fun p =>
          -((1 / (1 + Real.exp (-(params.a * p.x + params.b * p.y))) -
            (labelOrZero p.label : ℝ)) * p.x)).sum) / (data.length : ℝ) =
          ((data.map fun p => (1 / (1 + Real.exp (-(params.a * p.x + params.b * p.y))) -
            (labelOrZero p.label : ℝ)) * p.x).sum) / (data.length : ℝ) := by
        rw [sum_map_neg]
        ring
      rw [hfun, hgrad, ← hkey]
      exact hdiv
    · intro p hp
      have hz : HasDerivAt (fun t : ℝ => t * p.x + params.b * p.y) p.x params.a := by
        simpa using ((hasDerivAt_id params.a).mul_const p.x).add_const (params.b * p.y)
      exact logistic_term_hasDerivAt hz p.label (hlab p hp)

theorem logisticUnclamped_hasDerivAt_b (data : List DataPoint)
    (params : ModelParameters)
    (hlab : ∀ p ∈ data, p.label = none ∨ p.label = some 0 ∨ p.label = some 1) :
    HasDerivAt (fun t => logisticLossUnclamped data ⟨params.a, t⟩)
      ((logisticComputeGradient data params).b) params.b := by
  by_cases hd : data.length = 0
  · have hfun : (fun t => logisticLossUnclamped data ⟨params.a, t⟩) =
        fun _ => (0 : ℝ) := by
      funext t
      unfold logisticLossUnclamped
      rw [if_pos hd]
    have hgrad : (logisticComputeGradient data params).b = 0 := by
      rw [logisticComputeGradient_eq_sum, if_pos hd]
    rw [hfun, hgrad]
    exact hasDerivAt_const _ _
  · have hfun : (fun t => logisticLossUnclamped data ⟨params.a, t⟩) =
        fun t => (-((data.map fun p =>
          if p.label = some 1 then
            Real.log (1 / (1 + Real.exp (-(params.a * p.x + t * p.y))))
          else
            Real.log (1 - 1 / (1 + Real.exp (-(params.a * p.x + t * p.y))))).sum)) /
          (data.length : ℝ) := by
      funext t
      unfold logisticLossUnclamped
      rw [if_neg hd]
    have hgrad : (logisticComputeGradient data params).b =
        ((data.map fun p => (1 / (1 + Real.exp (-(params.a * p.x + params.b * p.y))) -
          (labelOrZero p.label : ℝ)) * p.y).sum) / (data.length : ℝ) := by
      rw [logisticComputeGradient_eq_sum, if_neg hd]
    have hsum := hasDerivAt_list_sum data
      (fun p t => if p.label = some 1 then
          Real.log (1 / (1 + Real.exp (-(params.a * p.x + t * p.y))))
        else Real.log (1 - 1 / (1 + Real.exp (-(params.a * p.x + t * p.y)))))
      (fun p => -((1 / (1 + Real.exp (-(params.a * p.x + params.b * p.y))) -
        (labelOrZero p.label : ℝ)) * p.y)) params.b ?_
    · have hdiv := (hsum.neg).div_const (data.length : ℝ)
      have hkey : -((data.map fun p =>
          -((1 / (1 + Real.exp (-(params.a * p.x + params.b * p.y))) -
            (labelOrZero p.label : ℝ)) * p.y)).sum) / (data.length : ℝ) =
          ((data.map fun p => (1 / (1 + Real.exp (-(params.a * p.x + params.b * p.y))) -
            (labelOrZero p.label : ℝ)) * p.y).sum) / (data.length : ℝ) := by
        rw [sum_map_neg]
        ring
      rw [hfun, hgrad, ← hkey]
      exact hdiv
    · intro p hp
      have hz : HasDerivAt (fun t : ℝ => params.a * p.x + t * p.y) p.y params.b := by
        simpa using ((hasDerivAt_id params.b).mul_const p.y).const_add (params.a * p.x)
      exact logistic_term_hasDerivAt hz p.label (hlab p hp)

theorem exp_neg_lt_eps {t : ℝ} (ht : 17 < t) : Real.exp (-t) < 1e-7 := by
  have h1 : Real.exp (-t) < Real.exp (-17) := Real.exp_lt_exp.2 (by linarith)
  have hbig : (1e7 : ℝ) < Real.exp 17 := by
    have hexp : (2.7182818283 : ℝ) < Real.exp 1 := Real.exp_one_gt_d9
    have hpow : (2.7182818283 : ℝ) ^ (17 : ℕ) < (Real.exp 1) ^ (17 : ℕ) :=
      pow_lt_pow_left₀ hexp (by norm_num) (by norm_num)
    have hval : (1e7 : ℝ) < (2.7182818283 : ℝ) ^ (17 : ℕ) := by norm_num
    calc (1e7 : ℝ) < (2.7182818283 : ℝ) ^ (17 : ℕ) := hval
      _ < (Real.exp 1) ^ (17 : ℕ) := hpow
      _ = Real.exp 17 := by
          rw [← Real.exp_nat_mul]
          norm_num
  have h2 : Real.exp (-17) < 1e-7 := by
    rw [Real.exp_neg]
    calc (Real.exp 17)⁻¹ < (1e7 : ℝ)⁻¹ := inv_strictAnti₀ (by norm_num) hbig
      _ = 1e-7 := by norm_num
  linarith

/-- For scores above `17`, the clamped logistic loss of the single
mislabelled far-out point `{x: 1, y: 0, label: 0}` is the constant
`-log(1e-7)`: the sigmoid output exceeds `1 - ε`, so the clamp freezes it
at `1 - ε`. -/
theorem cexLogistic_loss_eq {t : ℝ} (ht : 17 < t) :
    logisticComputeLoss [⟨1, 0, true, some 0⟩] ⟨t, 0⟩ = -Real.log 1e-7 := by
  have hE := exp_neg_lt_eps ht
  have hEpos : 0 < Real.exp (-t) := Real.exp_pos _
  have hS : (1 - 1e-7 : ℝ) ≤ 1 / (1 + Real.exp (-t)) := by
    rw [le_div_iff₀ (by positivity)]
    nlinarith
  have hterm : logisticLossTerm ⟨t, 0⟩ ⟨1, 0, true, some 0⟩ = Real.log 1e-7 := by
    simp only [logisticLossTerm]
    rw [if_neg (by decide : ¬((some 0 : Option ℤ) = some 1))]
    rw [show t * 1 + 0 * (0 : ℝ) = t by ring]
    rw [min_eq_left hS, max_eq_right (by norm_num : (1e-7 : ℝ) ≤ 1 - 1e-7)]
    norm_num
  rw [logisticComputeLoss_eq_sum, if_neg (by norm_num)]
  simp only [List.map_cons, List.map_nil, List.sum_cons, List.sum_nil,
    List.length_cons, List.length_nil, hterm]
  norm_num

/-- Counterexample to claim C1: for the logistic problem on the single data
point `{x: 1, y: 0, label: 0}` at parameters `{a: 20, b: 0}`, the clamped
`computeLoss` is locally constant in `a` (its partial derivative is `0`), but
`computeGradient(…).a = σ(20) > 0` — the gradient ignores the `ε`-clamp of
the loss, so it is not the analytic gradient of `computeLoss` there. -/
theorem claimC1_counterexample :
    ¬ HasDerivAt
        (fun t => logisticRegression.computeLoss [⟨1, 0, true, some 0⟩] ⟨t, 0⟩)
        ((logisticRegression.computeGradient [⟨1, 0, true, some 0⟩] ⟨20, 0⟩).a)
        20 := by
  intro h
  have hmem : Set.Ioi (17 : ℝ) ∈ nhds (20 : ℝ) := Ioi_mem_nhds (by norm_num)
  have hev : (fun t => logisticRegression.computeLoss [⟨1, 0, true, some 0⟩] ⟨t, 0⟩)
      =ᶠ[nhds (20 : ℝ)] fun _ => -Real.log 1e-7 := by
    filter_upwards [hmem] with t ht
    exact cexLogistic_loss_eq ht
  have hconst : HasDerivAt
      (fun t => logisticRegression.computeLoss [⟨1, 0, true, some 0⟩] ⟨t, 0⟩) 0 20 :=
    (hasDerivAt_const 20 (-Real.log 1e-7)).congr_of_eventuallyEq hev
  have huniq := h.unique hconst
  have hgrad : (logisticRegression.computeGradient [⟨1, 0, true, some 0⟩] ⟨20, 0⟩).a =
      1 / (1 + Real.exp (-(20 : ℝ))) := by
    show (logisticComputeGradient [⟨1, 0, true, some 0⟩] ⟨20, 0⟩).a = _
    rw [logisticComputeGradient_eq_sum, if_neg (by norm_num)]
    simp [labelOrZero]
  rw [hgrad] at huniq
  have hpos := sigmoid_pos (20 : ℝ)
  rw [huniq] at hpos
  exact lt_irrefl 0 hpos

/-- Claim C1 amended: for the linear and polynomial problems,
`computeGradient` is the exact analytic gradient of `computeLoss` (both
partial derivatives, at every data array and parameter pair).  For the
logistic problem, `computeGradient` is the exact analytic gradient of the
*unclamped* mean binary cross-entropy (`logisticLossUnclamped`, i.e.
`computeLoss` with the `ε = 1e-7` clamp removed) whenever every label is
absent, `0` or `1`; it differs from the gradient of the clamped
`computeLoss` at parameters where a prediction is clamped (see the
counterexample). -/
theorem claimC1_amended :
    (∀ (data : List DataPoint) (params : ModelParameters),
      HasDerivAt (fun t => linearRegression.computeLoss data ⟨t, params.b⟩)
        ((linearRegression.computeGradient data params).a) params.a ∧
      HasDerivAt (fun t => linearRegression.computeLoss data ⟨params.a, t⟩)
        ((linearRegression.computeGradient data params).b) params.b) ∧
    (∀ (data : List DataPoint) (params : ModelParameters),
      HasDerivAt (fun t => polynomialRegression.computeLoss data ⟨t, params.b⟩)
        ((polynomialRegression.computeGradient data params).a) params.a ∧
      HasDerivAt (fun t => polynomialRegression.computeLoss data ⟨params.a, t⟩)
        ((polynomialRegression.computeGradient data params).b) params.b) ∧
    (∀ (data : List DataPoint) (params : ModelParameters),
      (∀ p ∈ data, p.label = none ∨ p.label = some 0 ∨ p.label = some 1) →
      HasDerivAt (fun t => logisticLossUnclamped data ⟨t, params.b⟩)
        ((logisticRegression.computeGradient data params).a) params.a ∧
      HasDerivAt (fun t => logisticLossUnclamped data ⟨params.a, t⟩)
        ((logisticRegression.computeGradient data params).b) params.b) :=
  ⟨fun data params =>
    ⟨linear_loss_hasDerivAt_a data params, linear_loss_hasDerivAt_b data params⟩,
   fun data params =>
    ⟨polynomial_loss_hasDerivAt_a data params, polynomial_loss_hasDerivAt_b data params⟩,
   fun data params hlab =>
    ⟨logisticUnclamped_hasDerivAt_a data params hlab,
     logisticUnclamped_hasDerivAt_b data params hlab⟩⟩

/-- Witness for C1 amended: the logistic part applied to a concrete labelled
data point, its label hypothesis discharged. -/
theorem claimC1_amended_witness :
    HasDerivAt (fun t => logisticLossUnclamped [⟨1, 0, true, some 0⟩] ⟨t, 0⟩)
      ((logisticRegression.computeGradient [⟨1, 0, true, some 0⟩] ⟨2, 0⟩).a) 2 :=
  (claimC1_amended.2.2 [⟨1, 0, true, some 0⟩] ⟨2, 0⟩
    (by
      rintro p hp
      rcases List.mem_singleton.mp hp with rfl
      exact Or.inr (Or.inl rfl))).1

/-! ## Claim C3: one small step does not increase the loss by more than ε -/

theorem exists_bound_of_continuousAt {g : ℝ → ℝ} (hg : ContinuousAt g 0)
    (eps : ℝ) (heps : 0 < eps) :
    ∃ bound > 0, ∀ lr : ℝ, 0 < lr → lr < bound → g lr ≤ g 0 + eps := by
  rcases Metric.continuousAt_iff.1 hg eps heps with ⟨δ, hδ, hball⟩
  refine ⟨δ, hδ, ?_⟩
  intro lr h0 hlt
  have hd : dist lr 0 < δ := by
    rw [Real.dist_eq, sub_zero, abs_of_pos h0]
    exact hlt
  have hb := hball hd
  rw [Real.dist_eq] at hb
  have habs := abs_lt.1 hb
  linarith [habs.1, habs.2]

theorem continuous_list_sum {α : Type} (l : List α) (F : α → ℝ → ℝ)
    (h : ∀ p ∈ l, Continuous (F p)) :
    Continuous (fun u => (l.map (fun p => F p u)).sum) := by
  induction l with
  | nil => simpa using continuous_const
  | cons a tl ih =>
    simp only [List.map_cons, List.sum_cons]
    exact (h a (by simp)).add (ih fun p hp => h p (by simp [hp]))

theorem continuous_linearLoss_path (data : List DataPoint) (A B : ℝ → ℝ)
    (hA : Continuous A) (hB : Continuous B) :
    Continuous (fun lr => linearComputeLoss data ⟨A lr, B lr⟩) := by
  have hfun : (fun lr => linearComputeLoss data ⟨A lr, B lr⟩) = fun lr =>
      if data.length = 0 then 0 else
        ((data.map fun p => (A lr * p.x + B lr - p.y) *
          (A lr * p.x + B lr - p.y)).sum) / (data.length : ℝ) := by
    funext lr
    rw [linearComputeLoss_eq_sum]
  rw [hfun]
  by_cases hd : data.length = 0
  · simp only [hd, if_true]
    exact continuous_const
  · simp only [hd, if_false]
    refine Continuous.div_const ?_ _
    refine continuous_list_sum data _ ?_
    intro p _
    exact (((hA.mul continuous_const).add hB).sub continuous_const).mul
      (((hA.mul continuous_const).add hB).sub continuous_const)

theorem continuous_polynomialLoss_path (data : List DataPoint) (A B : ℝ → ℝ)
    (hA : Continuous A) (hB : Continuous B) :
    Continuous (fun lr => polynomialComputeLoss data ⟨A lr, B lr⟩) := by
  have hfun : (fun lr => polynomialComputeLoss data ⟨A lr, B lr⟩) = fun lr =>
      if data.length = 0 then 0 else
        ((data.map fun p => (A lr * p.x * p.x + B lr * p.x - p.y) *
          (A lr * p.x * p.x + B lr * p.x - p.y)).sum) / (data.length : ℝ) := by
    funext lr
    rw [polynomialComputeLoss_eq_sum]
  rw [hfun]
  by_cases hd : data.length = 0
  · simp only [hd, if_true]
    exact continuous_const
  · simp only [hd, if_false]
    refine Continuous.div_const ?_ _
    refine continuous_list_sum data _ ?_
    intro p _
    exact ((((hA.mul continuous_const).mul continuous_const).add
        (hB.mul continuous_const)).sub continuous_const).mul
      ((((hA.mul continuous_const).mul continuous_const).add
        (hB.mul continuous_const)).sub continuous_const)

theorem continuous_logisticLossTerm_path (p : DataPoint) (A B : ℝ → ℝ)
    (hA : Continuous A) (hB : Continuous B) :
    Continuous (fun lr => logisticLossTerm ⟨A lr, B lr⟩ p) := by
  have hz : Continuous (fun lr => A lr * p.x + B lr * p.y) :=
    (hA.mul continuous_const).add (hB.mul continuous_const)
  have hExp : Continuous (fun lr => Real.exp (-(A lr * p.x + B lr * p.y))) :=
    Real.continuous_exp.comp hz.neg
  have hden : Continuous (fun lr => 1 + Real.exp (-(A lr * p.x + B lr * p.y))) :=
    continuous_const.add hExp
  have hS : Continuous (fun lr =>
      1 / (1 + Real.exp (-(A lr * p.x + B lr * p.y)))) := by
    refine continuous_const.div hden ?_
    intro lr
    positivity
  have hclamp : Continuous (fun lr => max (1e-7 : ℝ) (min (1 - 1e-7)
      (1 / (1 + Real.exp (-(A lr * p.x + B lr * p.y)))))) :=
    continuous_const.max (continuous_const.min hS)
  have hclamp_lb : ∀ lr, (1e-7 : ℝ) ≤ max (1e-7 : ℝ) (min (1 - 1e-7)
      (1 / (1 + Real.exp (-(A lr * p.x + B lr * p.y))))) := fun lr => le_max_left _ _
  have hclamp_ub : ∀ lr, max (1e-7 : ℝ) (min (1 - 1e-7)
      (1 / (1 + Real.exp (-(A lr * p.x + B lr * p.y))))) ≤ 1 - 1e-7 := fun lr =>
    max_le (by norm_num) (min_le_left _ _)
  have hlog1 : Continuous (fun lr => Real.log (max (1e-7 : ℝ) (min (1 - 1e-7)
      (1 / (1 + Real.exp (-(A lr * p.x + B lr * p.y))))))) := by
    rw [continuous_iff_continuousAt]
    intro lr
    exact ContinuousAt.log hclamp.continuousAt
      (by have := hclamp_lb lr; positivity)
  have hlog2 : Continuous (fun lr => Real.log (1 - max (1e-7 : ℝ) (min (1 - 1e-7)
      (1 / (1 + Real.exp (-(A lr * p.x + B lr * p.y))))))) := by
    rw [continuous_iff_continuousAt]
    intro lr
    refine ContinuousAt.log (continuous_const.sub hclamp).continuousAt ?_
    have := hclamp_ub lr
    have h1 : (0 : ℝ) < 1 - max (1e-7 : ℝ) (min (1 - 1e-7)
        (1 / (1 + Real.exp (-(A lr * p.x + B lr * p.y))))) := by linarith
    exact ne_of_gt h1
  have hfun : (fun lr => logisticLossTerm ⟨A lr, B lr⟩ p) = fun lr =>
      if p.label = some 1 then
        Real.log (max (1e-7 : ℝ) (min (1 - 1e-7)
          (1 / (1 + Real.exp (-(A lr * p.x + B lr * p.y))))))
      else
        Real.log (1 - max (1e-7 : ℝ) (min (1 - 1e-7)
          (1 / (1 + Real.exp (-(A lr * p.x + B lr * p.y)))))) := rfl
  rw [hfun]
  by_cases hl : p.label = some 1
  · simp only [hl, if_true]
    exact hlog1
  · simp only [hl, if_false]
    exact hlog2

theorem continuous_logisticLoss_path (data : List DataPoint) (A B : ℝ → ℝ)
    (hA : Continuous A) (hB : Continuous B) :
    Continuous (fun lr => logisticComputeLoss data ⟨A lr, B lr⟩) := by
  have hfun : (fun lr => logisticComputeLoss data ⟨A lr, B lr⟩) = fun lr =>
      if data.length = 0 then 0 else
        (-(data.map (logisticLossTerm ⟨A lr, B lr⟩)).sum) / (data.length : ℝ) := by
    funext lr
    rw [logisticComputeLoss_eq_sum]
  rw [hfun]
  by_cases hd : data.length = 0
  · simp only [hd, if_true]
    exact continuous_const
  · simp only [hd, if_false]
    refine Continuous.div_const ?_ _
    refine Continuous.neg ?_
    exact continuous_list_sum data (fun p lr => logisticLossTerm ⟨A lr, B lr⟩ p)
      (fun p _ => continuous_logisticLossTerm_path p A B hA hB)

theorem gradientDescentStep_zero (data : List DataPoint)
    (params : ModelParameters) (model : ProblemConfig) :
    gradientDescentStep data params 0 model = params := by
  unfold gradientDescentStep
  simp

/-- Claim C3: for each problem, every non-empty data array, every parameter
pair and every `ε > 0`, there is a positive learning-rate bound below which
one `gradientDescentStep` does not increase the loss on the same data by
more than `ε`. -/
theorem claimC3_descent_epsilon :
    (∀ (data : List DataPoint) (params : ModelParameters) (eps : ℝ),
      data ≠ [] → 0 < eps →
      ∃ bound > 0, ∀ lr : ℝ, 0 < lr → lr < bound →
        linearRegression.computeLoss data
            (gradientDescentStep data params lr linearRegression) ≤
          linearRegression.computeLoss data params + eps) ∧
    (∀ (data : List DataPoint) (params : ModelParameters) (eps : ℝ),
      data ≠ [] → 0 < eps →
      ∃ bound > 0, ∀ lr : ℝ, 0 < lr → lr < bound →
        logisticRegression.computeLoss data
            (gradientDescentStep data params lr logisticRegression) ≤
          logisticRegression.computeLoss data params + eps) ∧
    (∀ (data : List DataPoint) (params : ModelParameters) (eps : ℝ),
      data ≠ [] → 0 < eps →
      ∃ bound > 0, ∀ lr : ℝ, 0 < lr → lr < bound →
        polynomialRegression.computeLoss data
            (gradientDescentStep data params lr polynomialRegression) ≤
          polynomialRegression.computeLoss data params + eps) := by
  refine ⟨?_, ?_, ?_⟩
  · intro data params eps _ heps
    have hg : Continuous (fun lr =>
        linearRegression.computeLoss data
          (gradientDescentStep data params lr linearRegression)) :=
      continuous_linearLoss_path data
        (fun lr => params.a - lr * (linearComputeGradient data params).a)
        (fun lr => params.b - lr * (linearComputeGradient data params).b)
        (continuous_const.sub (continuous_id.mul continuous_const))
        (continuous_const.sub (continuous_id.mul continuous_const))
    obtain ⟨bound, hb, hball⟩ := exists_bound_of_continuousAt hg.continuousAt eps heps
    refine ⟨bound, hb, ?_⟩
    intro lr h1 h2
    have hres := hball lr h1 h2
    rwa [gradientDescentStep_zero data params linearRegression] at hres
  · intro data params eps _ heps
    have hg : Continuous (fun lr =>
        logisticRegression.computeLoss data
          (gradientDescentStep data params lr logisticRegression)) :=
      continuous_logisticLoss_path data
        (fun lr => params.a - lr * (logisticComputeGradient data params).a)
        (fun lr => params.b - lr * (logisticComputeGradient data params).b)
        (continuous_const.sub (continuous_id.mul continuous_const))
        (continuous_const.sub (continuous_id.mul continuous_const))
    obtain ⟨bound, hb, hball⟩ := exists_bound_of_continuousAt hg.continuousAt eps heps
    refine ⟨bound, hb, ?_⟩
    intro lr h1 h2
    have hres := hball lr h1 h2
    rwa [gradientDescentStep_zero data params logisticRegression] at hres
  · intro data params eps _ heps
    have hg : Continuous (fun lr =>
        polynomialRegression.computeLoss data
          (gradientDescentStep data params lr polynomialRegression)) :=
      continuous_polynomialLoss_path data
        (fun lr => params.a - lr * (polynomialComputeGradient data params).a)
        (fun lr => params.b - lr * (polynomialComputeGradient data params).b)
        (continuous_const.sub (continuous_id.mul continuous_const))
        (continuous_const.sub (continuous_id.mul continuous_const))
    obtain ⟨bound, hb, hball⟩ := exists_bound_of_continuousAt hg.continuousAt eps heps
    refine ⟨bound, hb, ?_⟩
    intro lr h1 h2
    have hres := hball lr h1 h2
    rwa [gradientDescentStep_zero data params polynomialRegression] at hres

/-- Witness for C3 at a concrete non-empty dataset and `ε = 1`. -/
theorem claimC3_witness :
    ∃ bound > 0, ∀ lr : ℝ, 0 < lr → lr < bound →
      linearRegression.computeLoss [⟨1, 1, true, none⟩]
          (gradientDescentStep [⟨1, 1, true, none⟩] ⟨0, 0⟩ lr linearRegression) ≤
        linearRegression.computeLoss [⟨1, 1, true, none⟩] ⟨0, 0⟩ + 1 :=
  claimC3_descent_epsilon.1 [⟨1, 1, true, none⟩] ⟨0, 0⟩ 1 (by simp) (by norm_num)

/-! ## Claim C9: history step monotonicity and reset -/

/-- The session-state invariant maintained by the controller when manual
drags happen only while training is idle: the recorded steps are
non-decreasing, the last recorded step never exceeds the history length, and
during training the interval closure's `startingStep + stepsCompleted`
tracks the last recorded step. -/
def SessionInv (s : SessionState) : Prop :=
  List.Chain' (· ≤ ·) (s.history.map (·.step)) ∧
  (∀ l ∈ s.history.getLast?, l.step ≤ s.history.length) ∧
  (s.isTraining = true →
    s.startingStep + s.stepsCompleted ≤ s.history.length ∧
    ∀ l ∈ s.history.getLast?, l.step = s.startingStep + s.stepsCompleted)

theorem sessionInv_init (r1 r2 : ℝ) : SessionInv (initialState r1 r2) := by
  refine ⟨?_, ?_, ?_⟩ <;> simp [initialState]

theorem chain'_map_concat (h : List TrainingHistoryPoint)
    (pt : TrainingHistoryPoint)
    (hchain : List.Chain' (· ≤ ·) (h.map (·.step)))
    (hlast : ∀ l ∈ h.getLast?, l.step ≤ pt.step) :
    List.Chain' (· ≤ ·) ((h ++ [pt]).map (·.step)) := by
  rw [List.map_append]
  rw [List.chain'_append]
  refine ⟨hchain, by simp, ?_⟩
  intro x hx y hy
  simp only [List.map_cons, List.map_nil, List.head?_cons, Option.mem_def,
    Option.some_inj] at hy
  subst hy
  rw [List.getLast?_map] at hx
  simp only [Option.mem_def, Option.map_eq_some'] at hx
  obtain ⟨l, hl, rfl⟩ := hx
  exact hlast l hl

theorem sessionInv_preserved (data : List DataPoint) (config : ProblemConfig)
    (learningRate : ℝ) (totalSteps : ℕ) (s : SessionState) (e : Event)
    (hs : SessionInv s) (hdrag : e.isDrag = true → s.isTraining = false) :
    SessionInv (applyEvent data config learningRate totalSteps s e) := by
  obtain ⟨h1, h2, h3⟩ := hs
  cases e with
  | start =>
    show SessionInv (applyStart totalSteps s)
    unfold applyStart
    by_cases ht : s.isTraining
    · rw [if_pos ht]
      exact ⟨h1, h2, h3⟩
    · rw [if_neg ht]
      refine ⟨h1, h2, fun _ => ⟨?_, ?_⟩⟩
      · show lastHistStep s.history + 0 ≤ s.history.length
        unfold lastHistStep
        cases hLast : s.history.getLast? with
        | none => simp
        | some l => simpa using h2 l hLast
      · intro l hl
        show l.step = lastHistStep s.history + 0
        unfold lastHistStep
        rw [show s.history.getLast? = some l from hl]
        simp
  | stop =>
    show SessionInv (applyStop s)
    exact ⟨h1, h2, by simp [applyStop]⟩
  | reset r1 r2 =>
    show SessionInv (applyReset data config r1 r2 s)
    by_cases hd : 0 < data.length
    · exact ⟨by simp [applyReset, applyStop, historyAddPoint, historyResetStore, hd],
        by simp [applyReset, applyStop, historyAddPoint, historyResetStore, hd],
        by simp [applyReset, applyStop, historyAddPoint, historyResetStore, hd]⟩
    · exact ⟨by simp [applyReset, applyStop, historyAddPoint, historyResetStore, hd],
        by simp [applyReset, applyStop, historyAddPoint, historyResetStore, hd],
        by simp [applyReset, applyStop, historyAddPoint, historyResetStore, hd]⟩
  | drag p =>
    have hidle : s.isTraining = false := hdrag rfl
    show SessionInv (applyDrag data config p s)
    unfold applyDrag historyAddPoint
    refine ⟨?_, ?_, ?_⟩
    · refine chain'_map_concat _ _ h1 ?_
      intro l hl
      exact h2 l hl
    · intro l hl
      rw [List.getLast?_concat] at hl
      simp only [Option.mem_def, Option.some_inj] at hl
      subst hl
      simp
    · intro habs
      simp only [hidle] at habs
      cases habs
  | tick =>
    show SessionInv (applyTick data config learningRate s)
    unfold applyTick
    by_cases ht : s.isTraining = false
    · rw [if_pos ht]
      exact ⟨h1, h2, h3⟩
    · rw [if_neg ht]
      have htT : s.isTraining = true := by
        cases hb : s.isTraining
        · exact absurd hb ht
        · rfl
      by_cases hdone : s.stepsToTrain ≤ s.stepsCompleted
      · rw [if_pos hdone]
        exact ⟨h1, h2, by simp [applyStop]⟩
      · rw [if_neg hdone]
        obtain ⟨h3a, h3b⟩ := h3 htT
        unfold historyAddPoint
        refine ⟨?_, ?_, ?_⟩
        · refine chain'_map_concat _ _ h1 ?_
          intro l hl
          have := h3b l hl
          simp only [this]
          omega
        · intro l hl
          rw [List.getLast?_concat] at hl
          simp only [Option.mem_def, Option.some_inj] at hl
          subst hl
          simp only [List.length_append, List.length_cons, List.length_nil]
          omega
        · intro _
          constructor
          · simp only [List.length_append, List.length_cons, List.length_nil]
            omega
          · intro l hl
            rw [List.getLast?_concat] at hl
            simp only [Option.mem_def, Option.some_inj] at hl
            subst hl
            simp only []
            omega

/-- The states reachable from the pristine initial state by session events in
which every manual drag happens while training is idle. -/
inductive ReachableIdleDrag (data : List DataPoint) (config : ProblemConfig)
    (learningRate : ℝ) (totalSteps : ℕ) : SessionState → Prop where
  | init (r1 r2 : ℝ) :
      ReachableIdleDrag data config learningRate totalSteps (initialState r1 r2)
  | next (s : SessionState) (e : Event)
      (hs : ReachableIdleDrag data config learningRate totalSteps s)
      (hdrag : e.isDrag = true → s.isTraining = false) :
      ReachableIdleDrag data config learningRate totalSteps
        (applyEvent data config learningRate totalSteps s e)

theorem sessionInv_of_reachable (data : List DataPoint) (config : ProblemConfig)
    (learningRate : ℝ) (totalSteps : ℕ) (s : SessionState)
    (h : ReachableIdleDrag data config learningRate totalSteps s) :
    SessionInv s := by
  induction h with
  | init r1 r2 => exact sessionInv_init r1 r2
  | next s e hs hdrag ih =>
    exact sessionInv_preserved data config learningRate totalSteps s e ih hdrag

/-- A one-point dataset used by the C9 scenario. -/
noncomputable def cexData : List DataPoint := [⟨1, 2, true, none⟩]

/-- The C9 scenario: reset, start training (`totalSteps = 5`), one tick, two
manual drags during training, then another tick. -/
noncomputable def cexEvents : List Event :=
  [Event.reset 0.5 0.5, Event.start, Event.tick, Event.drag ⟨1, 1⟩,
   Event.drag ⟨2, 2⟩, Event.tick]

/-- Counterexample to claim C9, refuting both of its parts.  (1) Dragging the
marker during training makes a later tick append a *smaller* step than the
last recorded one: after reset → start → tick → drag → drag → tick the
recorded steps are `[0, 1, 2, 3, 2]` — the second tick appends
`startingStep + stepsCompleted + 1 = 2` although the drag handler had already
appended steps `2` and `3` — so the step fields are not non-decreasing.
(2) `resetTraining` re-appends the step-0 entry only under
`data.length > 0`, so on an empty dataset the history immediately after
`reset()` is empty, not of length `1`. -/
theorem claimC9_counterexample :
    ((runEvents cexData linearRegression 1 5 (initialState 0.5 0.5)
      cexEvents).history.map (·.step)) = [0, 1, 2, 3, 2] ∧
    ¬ List.Chain' (· ≤ ·) [(0 : ℕ), 1, 2, 3, 2] ∧
    (applyReset [] linearRegression 0.5 0.5 (initialState 0.5 0.5)).history = [] ∧
    (applyReset [] linearRegression 0.5 0.5
      (initialState 0.5 0.5)).history.length ≠ 1 := by
  refine ⟨?_, ?_, ?_, ?_⟩
  · norm_num [runEvents, cexEvents, cexData, initialState, applyEvent,
      applyReset, applyStop, applyStart, applyTick, applyDrag,
      historyAddPoint, historyResetStore, lastHistStep]
  · intro h
    rw [List.chain'_cons, List.chain'_cons, List.chain'_cons, List.chain'_cons] at h
    omega
  · simp [applyReset, applyStop, historyAddPoint, historyResetStore]
  · simp [applyReset, applyStop, historyAddPoint, historyResetStore]

/-- Claim C9 amended: as long as every manual drag happens while training is
idle, the `step` fields of successive history entries are non-decreasing;
in such runs every effective training tick appends exactly
`last recorded step + 1`; and `resetTraining` on a non-empty dataset always
leaves a history of length exactly `1` whose single entry is at step `0`
and holds the just-reset parameters `parametersStoreReset r1 r2`.  (A drag
*during* training breaks monotonicity, and `reset()` on an empty dataset
leaves the history empty — both shown by the counterexample.) -/
theorem claimC9_amended (data : List DataPoint) (config : ProblemConfig)
    (learningRate : ℝ) (totalSteps : ℕ) :
    (∀ s : SessionState,
      ReachableIdleDrag data config learningRate totalSteps s →
      List.Chain' (· ≤ ·) (s.history.map (·.step))) ∧
    (∀ s : SessionState,
      ReachableIdleDrag data config learningRate totalSteps s →
      s.isTraining = true → s.stepsCompleted < s.stepsToTrain →
      (applyTick data config learningRate s).history.map (·.step) =
        s.history.map (·.step) ++ [lastHistStep s.history + 1]) ∧
    (∀ (s : SessionState) (r1 r2 : ℝ), 0 < data.length →
      (applyReset data config r1 r2 s).history =
        [⟨0, config.computeLoss (data.filter (·.isTraining))
            (parametersStoreReset r1 r2),
          config.computeLoss (data.filter fun point => !point.isTraining)
            (parametersStoreReset r1 r2),
          parametersStoreReset r1 r2⟩]) := by
  refine ⟨?_, ?_, ?_⟩
  · intro s hreach
    exact (sessionInv_of_reachable data config learningRate totalSteps s hreach).1
  · intro s hreach htrain hnotdone
    obtain ⟨-, -, h3⟩ :=
      sessionInv_of_reachable data config learningRate totalSteps s hreach
    obtain ⟨h3a, h3b⟩ := h3 htrain
    have hstep : s.startingStep + s.stepsCompleted = lastHistStep s.history := by
      unfold lastHistStep
      cases hLast : s.history.getLast? with
      | none =>
        have hnil : s.history = [] := List.getLast?_eq_none_iff.mp hLast
        rw [hnil] at h3a
        simpa using h3a
      | some l => exact (h3b l hLast).symm
    show (applyTick data config learningRate s).history.map (·.step) = _
    unfold applyTick
    rw [if_neg (by simp [htrain]), if_neg (not_le.mpr hnotdone)]
    unfold historyAddPoint
    rw [List.map_append]
    simp only [List.map_cons, List.map_nil]
    rw [hstep]
  · intro s r1 r2 hd
    show (applyReset data config r1 r2 s).history = _
    simp [applyReset, applyStop, historyAddPoint, historyResetStore, hd]

/-- Witness for C9 amended: a concrete drag-free run (reset, start, one
tick) reaches a state with non-decreasing steps, and a concrete reset on a
non-empty dataset yields the singleton step-0 history holding the just-reset
parameters. -/
theorem claimC9_amended_witness :
    List.Chain' (· ≤ ·)
      ((applyEvent cexData linearRegression 1 5
          (applyEvent cexData linearRegression 1 5
            (applyEvent cexData linearRegression 1 5 (initialState 0.5 0.5)
              (Event.reset 0.5 0.5)) Event.start) Event.tick).history.map
        (·.step)) ∧
    (applyReset cexData linearRegression 0.3 0.7 (initialState 0.5 0.5)).history =
      [⟨0, linearRegression.computeLoss (cexData.filter (·.isTraining))
          (parametersStoreReset 0.3 0.7),
        linearRegression.computeLoss
          (cexData.filter fun point => !point.isTraining)
          (parametersStoreReset 0.3 0.7),
        parametersStoreReset 0.3 0.7⟩] :=
  ⟨(claimC9_amended cexData linearRegression 1 5).1 _
      (ReachableIdleDrag.next _ Event.tick
        (ReachableIdleDrag.next _ Event.start
          (ReachableIdleDrag.next _ (Event.reset 0.5 0.5)
            (ReachableIdleDrag.init 0.5 0.5) (by intro h; cases h))
          (by intro h; cases h))
        (by intro h; cases h)),
   (claimC9_amended cexData linearRegression 1 5).2.2 (initialState 0.5 0.5)
     0.3 0.7 (by simp [cexData])⟩

end GradDescent
